import Mathlib

/-!
Verification development for the design-to-schema analyzer pipeline
(HTML simplifier, code-signal extractor, classifier, field deriver,
confidence scorer, similarity matcher).

The embedding works over `Str := List Char` (one entry per UTF-16 code
unit of the JS string; all inputs considered here lie in the BMP, so code
units and code points coincide).  Every JS regular expression that the
source applies is hand-compiled to a deterministic scanner that follows
the regex engine's leftmost-match / greedy / lazy backtracking behaviour
for that particular pattern.  Scanners that advance through the string
use an explicit fuel argument (fuel = string length suffices because
every match consumes at least one character); this keeps all definitions
structurally recursive so that concrete runs reduce inside the kernel.

JS `number` arithmetic appearing in the scoring code is modelled by the
exact rational pair type `QJ`; all values arising in the verified claims
are exactly representable IEEE-754 doubles, so the idealisation is exact
on the inputs used here.  Figma node coordinates and font sizes are
modelled as integers (the thresholds compared against in the source are
all integral); `Math.round` on such already-integral quantities is the
identity.
-/

namespace Dovato

/-! ## Core string utilities -/

abbrev Str := List Char

def strOf (s : String) : Str := s.data

/-- The single-quote character (written via its code point). -/
def sq : Char := Char.ofNat 39

/-- Left brace. -/
def lbrace : Char := Char.ofNat 123

/-- Right brace. -/
def rbrace : Char := Char.ofNat 125

/-- Backquote. -/
def bq : Char := Char.ofNat 96

/-- JS `\s` / `trim` whitespace class. -/
def isJsWs (c : Char) : Bool :=
  c = ' ' || c = '\t' || c = '\n' || c = '\r' || c.toNat = 11 || c.toNat = 12 ||
  c.toNat = 160 || c.toNat = 0x1680 || (0x2000 ≤ c.toNat && c.toNat ≤ 0x200a) ||
  c.toNat = 0x2028 || c.toNat = 0x2029 || c.toNat = 0x202f || c.toNat = 0x205f ||
  c.toNat = 0x3000 || c.toNat = 0xfeff

/-- JS regex `.` (anything but a line terminator). -/
def jsDot (c : Char) : Bool :=
  !(c = '\n' || c = '\r' || c.toNat = 0x2028 || c.toNat = 0x2029)

/-- Model of JS `toLowerCase` (ASCII part; the non-ASCII letters JS would
additionally lower-case are all removed by the downstream `[^a-z0-9...]`
filters, so the difference is unobservable in the embedded functions). -/
def toLowerJs (c : Char) : Char := c.toLower

def lowerStr (s : Str) : Str := s.map toLowerJs

/-- JS `String.prototype.trim`. -/
def trimS (s : Str) : Str :=
  ((s.dropWhile isJsWs).reverse.dropWhile isJsWs).reverse

/-- JS `String.prototype.includes`. -/
def containsSub (p : Str) : Str → Bool
  | [] => p.isEmpty
  | c :: cs => p.isPrefixOf (c :: cs) || containsSub p cs

def containsAny (ps : List Str) (s : Str) : Bool := ps.any (fun p => containsSub p s)

/-- Case-insensitive `startsWith` (for regexes carrying the `/i` flag;
the needle is given lower-case). -/
def startsWithCI (p s : Str) : Bool := p.isPrefixOf ((s.take p.length).map toLowerJs)

def isQuote (c : Char) : Bool := c = '"' || c = sq

def natStr (n : Nat) : Str := (toString n).data

def intStr (n : Int) : Str := (toString n).data

/-- Keep the first occurrence of each element (JS `Set` insertion order). -/
def dedupAux [DecidableEq α] (seen : List α) : List α → List α
  | [] => []
  | a :: as => if a ∈ seen then dedupAux seen as else a :: dedupAux (a :: seen) as

def dedupKeepFirst [DecidableEq α] (l : List α) : List α := dedupAux [] l

/-- Keep the first element for each key (used for case-insensitive CTA dedup). -/
def dedupByKey (key : α → β) [DecidableEq β] (seen : List β) : List α → List α
  | [] => []
  | a :: as =>
    if key a ∈ seen then dedupByKey key seen as
    else a :: dedupByKey key (key a :: seen) as

/-! ## Exact-rational model of JS number arithmetic -/

structure QJ where
  num : Int
  den : Int
deriving DecidableEq

def QJ.ofInt (n : Int) : QJ := ⟨n, 1⟩

def QJ.add (a b : QJ) : QJ := ⟨a.num * b.den + b.num * a.den, a.den * b.den⟩

def QJ.mul (a b : QJ) : QJ := ⟨a.num * b.num, a.den * b.den⟩

def QJ.divQ (a b : QJ) : QJ := ⟨a.num * b.den, a.den * b.num⟩

def QJ.floorQ (q : QJ) : Int := Int.fdiv q.num q.den

/-- JS `Math.round` (half-up) on an exact rational. -/
def jsRound (q : QJ) : Int := QJ.floorQ (QJ.add q ⟨1, 2⟩)

/-! ## Scanner combinators

`replaceScan` models `String.prototype.replace` with a global regex: at
each position the compiled matcher `f` either yields a replacement and
the number of characters consumed (scanning resumes after them) or the
character is copied.  `collectScan` models `matchAll`/`exec` loops.
The fuel argument is always instantiated with the string length. -/

def replaceScan (f : Str → Option (Str × Nat)) : Nat → Str → Str
  | 0, s => s
  | _, [] => []
  | fuel + 1, c :: cs =>
    match f (c :: cs) with
    | some (r, k) => r ++ replaceScan f fuel (List.drop (max k 1) (c :: cs))
    | none => c :: replaceScan f fuel cs

def runReplace (f : Str → Option (Str × Nat)) (s : Str) : Str :=
  replaceScan f s.length s

def collectScan (f : Str → Option (α × Nat)) : Nat → Str → List α
  | 0, _ => []
  | _, [] => []
  | fuel + 1, c :: cs =>
    match f (c :: cs) with
    | some (a, k) => a :: collectScan f fuel (List.drop (max k 1) (c :: cs))
    | none => collectScan f fuel cs

def runCollect (f : Str → Option (α × Nat)) (s : Str) : List α :=
  collectScan f s.length s

/-- Like `collectScan` but also records the match's start position and length. -/
def collectScanPos (f : Str → Option (α × Nat)) : Nat → Nat → Str → List (Nat × α × Nat)
  | 0, _, _ => []
  | _, _, [] => []
  | fuel + 1, i, c :: cs =>
    match f (c :: cs) with
    | some (a, k) => (i, a, k) :: collectScanPos f fuel (i + max k 1) (List.drop (max k 1) (c :: cs))
    | none => collectScanPos f fuel (i + 1) cs

def runCollectPos (f : Str → Option (α × Nat)) (s : Str) : List (Nat × α × Nat) :=
  collectScanPos f s.length 0 s

/-- First position (leftmost) where the matcher succeeds (`String.match`
without the `g` flag, or a lazy `[\s\S]*?` prefix before the tail). -/
def findFirstScan (f : Str → Option α) : Str → Option α
  | [] => f []
  | c :: cs =>
    match f (c :: cs) with
    | some a => some a
    | none => findFirstScan f cs

/-- Lazy capture `(.*?)tail` / `([\s\S]*?)tail`: the earliest position
where `isClose` succeeds wins; with `dotOnly` the skipped characters must
not be line terminators. Returns (capture, rest-after-close). -/
def lazyCapture (isClose : Str → Option Str) (dotOnly : Bool) : Str → Option (Str × Str)
  | [] => (isClose []).map (fun r => (([] : Str), r))
  | c :: cs =>
    match isClose (c :: cs) with
    | some rest => some ([], rest)
    | none =>
      if dotOnly && !jsDot c then none
      else (lazyCapture isClose dotOnly cs).map (fun p => (c :: p.1, p.2))

/-- `[\s\S]{0,bound}?tail`: earliest success within `bound` skipped chars. -/
def lazySearchB (tryTail : Str → Option α) : Nat → Str → Option α
  | 0, s => tryTail s
  | b + 1, s =>
    match tryTail s with
    | some a => some a
    | none => match s with
      | [] => none
      | _ :: cs => lazySearchB tryTail b cs

/-- Convert a matcher returning the unconsumed rest into one returning the
number of consumed characters. -/
def toScan (g : Str → Option (α × Str)) : Str → Option (α × Nat) :=
  fun s => (g s).map (fun p => (p.1, s.length - p.2.length))

/-- `[^>]*>`: skip the (greedy, deterministic) run of non-`>` characters
and the terminating `>`. -/
def gtSkip (s : Str) : Option Str :=
  match s.dropWhile (· ≠ '>') with
  | '>' :: r => some r
  | _ => none

/-- `[^<]*` run. -/
def ltRun (s : Str) : Str := s.takeWhile (· ≠ '<')

/-- Literal closing tag. -/
def closeLit (lit : Str) : Str → Option Str :=
  fun s => if lit.isPrefixOf s then some (s.drop lit.length) else none

/-- Case-insensitive literal closing tag (needle lower-case). -/
def closeLitCI (lit : Str) : Str → Option Str :=
  fun s => if startsWithCI lit s then some (s.drop lit.length) else none

/-- `<[^>]+>` → `''` (the inline tag-stripping in `parseCodeSignals`). -/
def stripTagsPlus (s : Str) : Str :=
  runReplace (fun t =>
    match t with
    | '<' :: r =>
      let run := r.takeWhile (· ≠ '>')
      if run ≠ [] then
        match r.drop run.length with
        | '>' :: _ => some ([], run.length + 2)
        | _ => none
      else none
    | _ => none) s

/-- `<[^>]*>` → `''` (the `stripHtml` method). -/
def stripTagsStar (s : Str) : Str :=
  runReplace (fun t =>
    match t with
    | '<' :: r =>
      let run := r.takeWhile (· ≠ '>')
      match r.drop run.length with
      | '>' :: _ => some ([], run.length + 2)
      | _ => none
    | _ => none) s

/-! ## Signal extractor (`parseCodeSignals`) -/

inductive CtaType where
  | button
  | link
deriving DecidableEq

structure Cta where
  text : Str
  href : Option Str
  ctype : CtaType
deriving DecidableEq

structure CodeSignals where
  repeatedContainerNames : List (Str × Nat)
  distinctHeadings : List Str
  actionButtonCount : Nat
  itemLikeContainerCount : Nat
  multiItemLikely : Bool
  semanticCtas : List Cta
deriving DecidableEq

def zeroSignals : CodeSignals :=
  { repeatedContainerNames := [], distinctHeadings := [], actionButtonCount := 0,
    itemLikeContainerCount := 0, multiItemLikely := false, semanticCtas := [] }

/-- The separator class `["'\-\s]` inserted between pattern words. -/
def sepChar (c : Char) : Bool := c = '"' || c = sq || c = '-' || isJsWs c

/-- Match the words of a container-name pattern separated by `["'\-\s]*`
(greedy; deterministic because no word starts with a separator char).
Returns the number of characters consumed. -/
def tryWords : List Str → Str → Option Nat
  | [], _ => some 0
  | [w], s => if w.isPrefixOf s then some w.length else none
  | w :: w2 :: ws, s =>
    if w.isPrefixOf s then
      let r := s.drop w.length
      let sep := r.takeWhile sepChar
      match tryWords (w2 :: ws) (r.drop sep.length) with
      | some k => some (w.length + sep.length + k)
      | none => none
    else none

def countPattern (ws : List Str) (s : Str) : Nat :=
  (runCollect (fun t => (tryWords ws t).map (fun k => ((), k))) s).length

def containerNamePatterns : List (Str × List Str) :=
  [(strOf "accordion item", [strOf "accordion", strOf "item"]),
   (strOf "card", [strOf "card"]),
   (strOf "service item", [strOf "service", strOf "item"]),
   (strOf "plan card", [strOf "plan", strOf "card"]),
   (strOf "pricing card", [strOf "pricing", strOf "card"]),
   (strOf "tab item", [strOf "tab", strOf "item"]),
   (strOf "carousel item", [strOf "carousel", strOf "item"]),
   (strOf "gallery item", [strOf "gallery", strOf "item"])]

def repeatedContainerNamesOf (code : Str) : List (Str × Nat) :=
  containerNamePatterns.filterMap (fun p =>
    let n := countPattern p.2 code
    if 0 < n then some (p.1, n) else none)

/-- `</h[1-6]>` -/
def closeHtag : Str → Option Str
  | '<' :: '/' :: 'h' :: d :: '>' :: r => if '1' ≤ d ∧ d ≤ '6' then some r else none
  | _ => none

/-- `</` (end of heading alternative B) -/
def closeSlash : Str → Option Str
  | '<' :: '/' :: r => some r
  | _ => none

/-- Alternative A of the heading regex: `<h[1-6][^>]*>(.*?)<\/h[1-6]>`. -/
def tryHeadingA : Str → Option (Str × Str)
  | '<' :: 'h' :: d :: r0 =>
    if '1' ≤ d ∧ d ≤ '6' then (gtSkip r0).bind (lazyCapture closeHtag true) else none
  | _ => none

def headingClassKeywords : List Str :=
  [strOf "font-bold", strOf "text-xl", strOf "text-2xl", strOf "heading"]

/-- Alternative B: `class=["'][^"']*(?:font-bold|text-xl|text-2xl|heading)[^"']*["'][^>]*>(.*?)<\/`. -/
def tryHeadingB (s : Str) : Option (Str × Str) :=
  if (strOf "class=").isPrefixOf s then
    match s.drop 6 with
    | q :: r1 =>
      if isQuote q then
        let run := r1.takeWhile (fun c => !isQuote c)
        if containsAny headingClassKeywords run then
          match r1.drop run.length with
          | q2 :: r2 =>
            if isQuote q2 then (gtSkip r2).bind (lazyCapture closeSlash true) else none
          | [] => none
        else none
      else none
    | [] => none
  else none

def tryHeading (s : Str) : Option (Str × Nat) :=
  toScan (fun t =>
    match tryHeadingA t with
    | some x => some x
    | none => tryHeadingB t) s

def headingTextsOf (code : Str) : List Str :=
  (runCollect tryHeading code).filterMap (fun cap =>
    let t := trimS (stripTagsPlus cap)
    if t ≠ [] ∧ t.length ≤ 60 then some t else none)

def distinctHeadingsOf (code : Str) : List Str := dedupKeepFirst (headingTextsOf code)

def actionKeywords : List Str :=
  [strOf "add", strOf "edit", strOf "remove", strOf "delete", strOf "view",
   strOf "upgrade", strOf "select", strOf "choose", strOf "learn more",
   strOf "subscribe", strOf "sign up"]

/-- One branch of `<button[^>]*>[^<]*KW[^<]*<` / `<a[^>]*>[^<]*KW[^<]*<`. -/
def tryActionTag (openTag : Str) (kw : Str) (t : Str) : Option (Unit × Str) :=
  if openTag.isPrefixOf t then
    (gtSkip (t.drop openTag.length)).bind (fun r1 =>
      let run := ltRun r1
      if containsSub kw run then
        match r1.drop run.length with
        | '<' :: r2 => some ((), r2)
        | _ => none
      else none)
  else none

def tryAction (kw : Str) (t : Str) : Option (Unit × Str) :=
  match tryActionTag (strOf "<button") kw t with
  | some x => some x
  | none => tryActionTag (strOf "<a") kw t

def actionButtonCountOf (code : Str) : Nat :=
  (actionKeywords.map (fun k => (runCollect (toScan (tryAction k)) code).length)).sum

/-- `<button[^>]*>(.*?)<\/button>` -/
def tryButtonEl (t : Str) : Option (Str × Str) :=
  if (strOf "<button").isPrefixOf t then
    (gtSkip (t.drop 7)).bind (lazyCapture (closeLit (strOf "</button>")) true)
  else none

def scanButtons (code : Str) : List Str := runCollect (toScan tryButtonEl) code

/-- `<a[^>]*href=["']([^"']+)["'][^>]*>(.*?)<\/a>`.  The greedy `[^>]*`
before `href=` backtracks from the longest run, hence candidate offsets
are tried in descending order. -/
def tryLinkEl (t : Str) : Option ((Str × Str) × Str) :=
  if (strOf "<a").isPrefixOf t then
    let r0 := t.drop 2
    let run := r0.takeWhile (· ≠ '>')
    let cands := ((List.range (run.length + 1)).filter (fun k =>
      (strOf "href=").isPrefixOf (r0.drop k) &&
      (match r0.drop (k + 5) with
       | q :: _ => isQuote q
       | [] => false))).reverse
    cands.findSome? (fun k =>
      let r1 := r0.drop (k + 6)
      let v := r1.takeWhile (fun c => !isQuote c)
      if v ≠ [] then
        match r1.drop v.length with
        | _ :: r2 =>
          (gtSkip r2).bind (fun r3 =>
            (lazyCapture (closeLit (strOf "</a>")) true r3).map (fun p => ((v, p.1), p.2)))
        | [] => none
      else none)
  else none

def scanLinks (code : Str) : List (Str × Str) := runCollect (toScan tryLinkEl) code

/-- The four quote combinations of `data-name=["']W["']`. -/
def quoteCombos (w : Str) : List Str :=
  [strOf "data-name=" ++ '"' :: (w ++ ['"']),
   strOf "data-name=" ++ '"' :: (w ++ [sq]),
   strOf "data-name=" ++ sq :: (w ++ ['"']),
   strOf "data-name=" ++ sq :: (w ++ [sq])]

/-- `<div[^>]*data-name=["']Button["'][^>]*>([\s\S]*?)<\/div>` (on the raw,
case-preserved code). -/
def tryDivButtonEl (t : Str) : Option (Str × Str) :=
  if (strOf "<div").isPrefixOf t then
    let r0 := t.drop 4
    let run := r0.takeWhile (· ≠ '>')
    if containsAny (quoteCombos (strOf "Button")) run then
      match r0.drop run.length with
      | '>' :: r1 => lazyCapture (closeLit (strOf "</div>")) false r1
      | _ => none
    else none
  else none

def scanDivButtons (raw : Str) : List Str := runCollect (toScan tryDivButtonEl) raw

/-- `<TAG[^>]*>(.*?)<\/TAG>` with `/i` (both literals given lower-case). -/
def tryTagCapCI (openLit closeTagLit : Str) (t : Str) : Option Str :=
  if startsWithCI openLit t then
    ((gtSkip (t.drop openLit.length)).bind
      (lazyCapture (closeLitCI closeTagLit) true)).map (·.1)
  else none

/-- `>([^<>]{1,100})<` -/
def tryShortText : Str → Option Str
  | '>' :: r =>
    let run := r.takeWhile (fun c => c ≠ '<' ∧ c ≠ '>')
    if 1 ≤ run.length ∧ run.length ≤ 100 then
      match r.drop run.length with
      | '<' :: _ => some run
      | _ => none
    else none
  | _ => none

/-- The three text-extraction attempts inside a Figma `Button` div. -/
def divButtonText (inner : Str) : Option Str :=
  match findFirstScan (tryTagCapCI (strOf "<p") (strOf "</p>")) inner with
  | some x => some x
  | none =>
    match findFirstScan (tryTagCapCI (strOf "<span") (strOf "</span>")) inner with
    | some x => some x
    | none => findFirstScan tryShortText inner

def buttonCtas (code : Str) : List Cta :=
  (scanButtons code).filterMap (fun inner =>
    let t := trimS (stripTagsPlus inner)
    if t ≠ [] ∧ t.length ≤ 100 then some ⟨t, none, CtaType.button⟩ else none)

def linkCtas (code : Str) : List Cta :=
  (scanLinks code).filterMap (fun m =>
    let href := m.1
    let t := trimS (stripTagsPlus m.2)
    if t ≠ [] ∧ href ≠ [] ∧ href ≠ ['#'] ∧ 1 < href.length ∧
       ¬ (strOf "javascript:").isPrefixOf href ∧ t.length ≤ 100 then
      some ⟨t, some href, CtaType.link⟩
    else none)

def divButtonCtas (raw : Str) : List Cta :=
  (scanDivButtons raw).filterMap (fun inner =>
    match divButtonText inner with
    | some t1 =>
      let rt := trimS (stripTagsPlus t1)
      if rt ≠ [] ∧ rt.length ≤ 100 then some ⟨rt, none, CtaType.button⟩ else none
    | none => none)

def ctaCandidates (code raw : Str) : List Cta :=
  buttonCtas code ++ linkCtas code ++ divButtonCtas raw

def semanticCtasOf (code raw : Str) : List Cta :=
  dedupByKey (fun c => lowerStr c.text) [] (ctaCandidates code raw)

/-- `data-name=["'](ALT1|ALT2|...)["']` (quotes may mismatch, as in the
source's regex, whose backreference groups are unused). -/
def tryQuotedDataName (alts : List Str) (t : Str) : Option (Unit × Nat) :=
  toScan (fun s =>
    if (strOf "data-name=").isPrefixOf s then
      match s.drop 10 with
      | q :: r =>
        if isQuote q then
          alts.findSome? (fun w =>
            if w.isPrefixOf r then
              match r.drop w.length with
              | q2 :: rest => if isQuote q2 then some ((), rest) else none
              | [] => none
            else none)
        else none
      | [] => none
    else none) t

def countItemLike (code : Str) : Nat :=
  (runCollect (tryQuotedDataName
    [strOf "accordion item", strOf "card", strOf "service item", strOf "plan card"]) code).length

def countGeneric (code : Str) : Nat :=
  (runCollect (tryQuotedDataName [strOf "container"]) code).length

/-- `data-name=["']heading(?: \d+)?["']` (greedy optional group with
fallback, as in the engine). -/
def trySmallHeading (t : Str) : Option (Unit × Nat) :=
  toScan (fun s =>
    if (strOf "data-name=").isPrefixOf s then
      match s.drop 10 with
      | q :: r =>
        if isQuote q ∧ (strOf "heading").isPrefixOf r then
          let r2 := r.drop 7
          let longM : Option Str :=
            match r2 with
            | ' ' :: r3 =>
              let ds := r3.takeWhile Char.isDigit
              if ds ≠ [] then
                match r3.drop ds.length with
                | q2 :: rest => if isQuote q2 then some rest else none
                | [] => none
              else none
            | _ => none
          match longM with
          | some rest => some ((), rest)
          | none =>
            match r2 with
            | q2 :: rest => if isQuote q2 then some ((), rest) else none
            | [] => none
        else none
      | [] => none
    else none) t

def countSmallHeadings (code : Str) : Nat :=
  (runCollect trySmallHeading code).length

/-- `•\s+[a-z0-9]` -/
def tryBullet (t : Str) : Option (Unit × Nat) :=
  toScan (fun s =>
    match s with
    | c :: r =>
      if c = '•' then
        let ws := r.takeWhile isJsWs
        if ws ≠ [] then
          match r.drop ws.length with
          | c2 :: rest =>
            if ('a' ≤ c2 ∧ c2 ≤ 'z') ∨ ('0' ≤ c2 ∧ c2 ≤ '9') then some ((), rest) else none
          | [] => none
        else none
      else none
    | [] => none) t

def countBullets (code : Str) : Nat := (runCollect tryBullet code).length

/-- The generic-container multi-item heuristic
(`genericContainerCount >= 2 && (smallHeadings >= 2 || bullets >= 4)`). -/
def genericContainerMultiItemSignal (code : Str) : Bool :=
  decide (2 ≤ countGeneric code) &&
    (decide (2 ≤ countSmallHeadings code) || decide (4 ≤ countBullets code))

/-- `DesignAnalyzer.parseCodeSignals`. -/
def parseCodeSignals (rawCode : Option Str) : CodeSignals :=
  match rawCode with
  | none => zeroSignals
  | some raw =>
    if raw.length < 40 then zeroSignals
    else
      let code := lowerStr raw
      let repeated := repeatedContainerNamesOf code
      let distinct := distinctHeadingsOf code
      let hasRepeated := repeated.any (fun p => decide (2 ≤ p.2))
      let mil := hasRepeated || decide (2 ≤ distinct.length) ||
        decide (2 ≤ countItemLike code) || genericContainerMultiItemSignal code
      { repeatedContainerNames := repeated,
        distinctHeadings := distinct,
        actionButtonCount := actionButtonCountOf code,
        itemLikeContainerCount := countItemLike code,
        multiItemLikely := mil,
        semanticCtas := semanticCtasOf code raw }

/-! ## HTML simplifier (`HTMLSimplifier`)

Matchers in this section return `(replacement, rest-of-string)`; they are
lifted into the global-replace scanner with `toScan`. -/

def runReplaceR (g : Str → Option (Str × Str)) (s : Str) : Str :=
  runReplace (toScan g) s

def applyN (f : α → α) : Nat → α → α
  | 0, a => a
  | n + 1, a => applyN f n (f a)

/-- Literal global replacement. -/
def tryLit (lit repl : Str) (t : Str) : Option (Str × Str) :=
  if lit.isPrefixOf t then some (repl, t.drop lit.length) else none

/-- All start indices of occurrences of `p`. -/
def idxOfSubAux (p : Str) : Nat → Str → List Nat
  | i, [] => if p.isEmpty then [i] else []
  | i, c :: cs =>
    (if p.isPrefixOf (c :: cs) then [i] else []) ++ idxOfSubAux p (i + 1) cs

def allIdxOfSub (p s : Str) : List Nat := idxOfSubAux p 0 s

/-- `return\s*\(([\s\S]*)\);?\s*\}` — the greedy `[\s\S]*` backtracks, so
the capture ends at the last `)` whose tail `;?\s*\}` matches. -/
def wsBraceR (t : Str) : Bool :=
  match t.dropWhile isJsWs with
  | c :: _ => c = rbrace
  | [] => false

def returnTailOk (t : Str) : Bool :=
  wsBraceR t ||
    (match t with
     | c :: t2 => c = ';' && wsBraceR t2
     | [] => false)

def tryReturnJSX (t : Str) : Option Str :=
  if (strOf "return").isPrefixOf t then
    let r0 := t.drop 6
    let r1 := r0.dropWhile isJsWs
    match r1 with
    | '(' :: r2 =>
      let ps := (List.range r2.length).filter (fun i =>
        r2.get? i = some ')' && returnTailOk (r2.drop (i + 1)))
      (ps.getLast?).map (fun i => r2.take i)
    | _ => none
  else none

/-- `<div[\s\S]*<\/div>` — first `<div`, last `</div>`. -/
def divSpan (code : Str) : Option Str :=
  match allIdxOfSub (strOf "<div") code with
  | [] => none
  | i :: _ =>
    match (allIdxOfSub (strOf "</div>") code).filter (fun j => i + 4 ≤ j) with
    | [] => none
    | js =>
      (js.getLast?).map (fun j => (code.drop i).take (j + 6 - i))

/-- `HTMLSimplifier.extractJSX`. -/
def extractJSX (code : Str) : Str :=
  match findFirstScan tryReturnJSX code with
  | some cap => trimS cap
  | none =>
    match divSpan code with
    | some m => m
    | none => code

/-- `{`…`}` template literal: `\{\`([^`]+)\`\}` → `$1`. -/
def tryTemplateLit (t : Str) : Option (Str × Str) :=
  match t with
  | a :: b :: r =>
    if a = lbrace ∧ b = bq then
      let run := r.takeWhile (· ≠ bq)
      if run ≠ [] then
        match r.drop run.length with
        | x :: y :: rest => if x = bq ∧ y = rbrace then some (run, rest) else none
        | _ => none
      else none
    else none
  | _ => none

/-- `src=\{img[^}]+\}` → `src=""`. -/
def trySrcVar (t : Str) : Option (Str × Str) :=
  if (strOf "src=" ++ [lbrace] ++ strOf "img").isPrefixOf t then
    let r := t.drop 8
    let run := r.takeWhile (· ≠ rbrace)
    if run ≠ [] then
      match r.drop run.length with
      | _ :: rest => some (strOf "src=" ++ ['"', '"'], rest)
      | [] => none
    else none
  else none

/-- `HTMLSimplifier.convertReactToHTML`. -/
def convertReactToHTML (html : Str) : Str :=
  let h1 := runReplaceR (tryLit (strOf "className=") (strOf "class=")) html
  let h2 := runReplaceR tryTemplateLit h1
  runReplaceR trySrcVar h2

/-- `\s+class="[^"]*"` → `''`. -/
def tryWsClassAttr (t : Str) : Option (Str × Str) :=
  let ws := t.takeWhile isJsWs
  if ws ≠ [] ∧ (strOf "class=" ++ ['"']).isPrefixOf (t.drop ws.length) then
    let r := t.drop (ws.length + 7)
    let run := r.takeWhile (· ≠ '"')
    match r.drop run.length with
    | _ :: rest => some ([], rest)
    | [] => none
  else none

/-- `HTMLSimplifier.removeClassAttributes`. -/
def removeClassAttributes (html : Str) : Str := runReplaceR tryWsClassAttr html

/-- `\s+style=\{[^}]+\}` → `''`. -/
def tryWsStyleObj (t : Str) : Option (Str × Str) :=
  let ws := t.takeWhile isJsWs
  if ws ≠ [] ∧ (strOf "style=" ++ [lbrace]).isPrefixOf (t.drop ws.length) then
    let r := t.drop (ws.length + 7)
    let run := r.takeWhile (· ≠ rbrace)
    if run ≠ [] then
      match r.drop run.length with
      | _ :: rest => some ([], rest)
      | [] => none
    else none
  else none

/-- `\s+style="[^"]*"` → `''`. -/
def tryWsStyleStr (t : Str) : Option (Str × Str) :=
  let ws := t.takeWhile isJsWs
  if ws ≠ [] ∧ (strOf "style=" ++ ['"']).isPrefixOf (t.drop ws.length) then
    let r := t.drop (ws.length + 7)
    let run := r.takeWhile (· ≠ '"')
    match r.drop run.length with
    | _ :: rest => some ([], rest)
    | [] => none
  else none

/-- `HTMLSimplifier.removeInlineStyles`. -/
def removeInlineStyles (html : Str) : Str :=
  runReplaceR tryWsStyleStr (runReplaceR tryWsStyleObj html)

/-- For `[\s\S]*?<\/div>` followed by `\s*<\/div>`: first inner `</div>`
occurrence whose tail also matches. Returns (body-before-close, rest
after the outer `</div>`). -/
def innerOuterDiv (r3 : Str) : Option (Str × Str) :=
  (allIdxOfSub (strOf "</div>") r3).findSome? (fun o =>
    let afterWs := (r3.drop (o + 6)).dropWhile isJsWs
    if (strOf "</div>").isPrefixOf afterWs then
      some (r3.take o, afterWs.drop 6)
    else none)

/-- First wrapper-collapsing regex:
`<div(?![^>]*data-name)([^>]*)>\s*(<div[^>]*data-name=[^>]*>[\s\S]*?<\/div>)\s*<\/div>`
→ `$2`. -/
def tryWrap1 (t : Str) : Option (Str × Str) :=
  if (strOf "<div").isPrefixOf t then
    let r0 := t.drop 4
    let run := r0.takeWhile (· ≠ '>')
    if containsSub (strOf "data-name") run then none
    else
      match r0.drop run.length with
      | '>' :: r1 =>
        let wsr := r1.dropWhile isJsWs
        if (strOf "<div").isPrefixOf wsr then
          let r2 := wsr.drop 4
          let run2 := r2.takeWhile (· ≠ '>')
          if containsSub (strOf "data-name=") run2 then
            match r2.drop run2.length with
            | '>' :: r3 =>
              (innerOuterDiv r3).map (fun p =>
                (strOf "<div" ++ run2 ++ '>' :: (p.1 ++ strOf "</div>"), p.2))
            | _ => none
          else none
        else none
      | _ => none
  else none

/-- The inner-tag alternation `(?:p|img|div\s+data-name)` of the second
wrapper regex. Returns (consumed-characters, rest). -/
def wrap2Alt (rr : Str) : Option (Str × Str) :=
  if (strOf "p").isPrefixOf rr then some (strOf "p", rr.drop 1)
  else if (strOf "img").isPrefixOf rr then some (strOf "img", rr.drop 3)
  else if (strOf "div").isPrefixOf rr then
    let r := rr.drop 3
    let ws1 := r.takeWhile isJsWs
    if ws1 ≠ [] ∧ (strOf "data-name").isPrefixOf (r.drop ws1.length) then
      some (strOf "div" ++ ws1 ++ strOf "data-name", r.drop (ws1.length + 9))
    else none
  else none

/-- Candidate closing tags `<\/(?:p|div)>`: list of (index, tag length). -/
def closeCandsAux : Nat → Str → List (Nat × Nat)
  | _, [] => []
  | i, c :: cs =>
    (if (strOf "</p>").isPrefixOf (c :: cs) then [(i, 4)]
     else if (strOf "</div>").isPrefixOf (c :: cs) then [(i, 6)]
     else []) ++ closeCandsAux (i + 1) cs

/-- For `[\s\S]*?<\/(?:p|div)>` followed by `\s*<\/div>`. Returns
(body-including-close-tag, rest after the outer `</div>`). -/
def innerOuterMixed (r3 : Str) : Option (Str × Str) :=
  (closeCandsAux 0 r3).findSome? (fun p =>
    let afterWs := (r3.drop (p.1 + p.2)).dropWhile isJsWs
    if (strOf "</div>").isPrefixOf afterWs then
      some (r3.take (p.1 + p.2), afterWs.drop 6)
    else none)

/-- Second wrapper-collapsing regex:
`<div(?![^>]*data-name)([^>]*)>\s*(<(?:p|img|div\s+data-name)[^>]*>[\s\S]*?<\/(?:p|div)>)\s*<\/div>`
→ `$2`. -/
def tryWrap2 (t : Str) : Option (Str × Str) :=
  if (strOf "<div").isPrefixOf t then
    let r0 := t.drop 4
    let run := r0.takeWhile (· ≠ '>')
    if containsSub (strOf "data-name") run then none
    else
      match r0.drop run.length with
      | '>' :: r1 =>
        let wsr := r1.dropWhile isJsWs
        match wsr with
        | '<' :: rr =>
          match wrap2Alt rr with
          | some alt =>
            let run2 := alt.2.takeWhile (· ≠ '>')
            match alt.2.drop run2.length with
            | '>' :: r3 =>
              (innerOuterMixed r3).map (fun p =>
                ('<' :: alt.1 ++ run2 ++ '>' :: p.1, p.2))
            | _ => none
          | none => none
        | _ => none
      | _ => none
  else none

/-- `HTMLSimplifier.collapseLayoutWrappers` (5 then 3 global passes). -/
def collapseLayoutWrappers (html : Str) : Str :=
  applyN (runReplaceR tryWrap2) 3 (applyN (runReplaceR tryWrap1) 5 html)

/-- `content.match(/<img[^>]*>/)` -/
def tryImgTag (t : Str) : Option Str :=
  if (strOf "<img").isPrefixOf t then
    let r := t.drop 4
    let run2 := r.takeWhile (· ≠ '>')
    match r.drop run2.length with
    | '>' :: _ => some (strOf "<img" ++ run2 ++ ['>'])
    | _ => none
  else none

/-- `<div([^>]*data-name="TAG"[^>]*)>([\s\S]*?)<\/div>` with the
first-`<img>` callback replacement. -/
def tryNamedImgDiv (tag : Str) (t : Str) : Option (Str × Str) :=
  if (strOf "<div").isPrefixOf t then
    let r0 := t.drop 4
    let run := r0.takeWhile (· ≠ '>')
    if containsSub (strOf "data-name=" ++ '"' :: (tag ++ ['"'])) run then
      match r0.drop run.length with
      | '>' :: r1 =>
        (lazyCapture (closeLit (strOf "</div>")) false r1).map (fun p =>
          match findFirstScan tryImgTag p.1 with
          | some img => (strOf "<div" ++ run ++ '>' :: (img ++ strOf "</div>"), p.2)
          | none => (strOf "<div" ++ run ++ '>' :: (p.1 ++ strOf "</div>"), p.2))
      | _ => none
    else none
  else none

/-- `<div[^>]*data-name="Vector"[^>]*>([\s\S]*?)<\/div>` → `$1`. -/
def tryVectorDiv (t : Str) : Option (Str × Str) :=
  if (strOf "<div").isPrefixOf t then
    let r0 := t.drop 4
    let run := r0.takeWhile (· ≠ '>')
    if containsSub (strOf "data-name=" ++ '"' :: (strOf "Vector" ++ ['"'])) run then
      match r0.drop run.length with
      | '>' :: r1 => lazyCapture (closeLit (strOf "</div>")) false r1
      | _ => none
    else none
  else none

/-- `HTMLSimplifier.simplifyImages`. -/
def simplifyImages (html : Str) : Str :=
  runReplaceR tryVectorDiv
    (runReplaceR (tryNamedImgDiv (strOf "Image"))
      (runReplaceR (tryNamedImgDiv (strOf "Icon")) html))

/-- `\s{2,}` → `' '`. -/
def tryMultiWs (t : Str) : Option (Str × Str) :=
  let ws := t.takeWhile isJsWs
  if 2 ≤ ws.length then some ([' '], t.drop ws.length) else none

/-- `>\s+<` → `'><'`. -/
def tryGtWsLt (t : Str) : Option (Str × Str) :=
  match t with
  | '>' :: r =>
    let ws := r.takeWhile isJsWs
    if ws ≠ [] then
      match r.drop ws.length with
      | '<' :: rest => some (strOf "><", rest)
      | _ => none
    else none
  | _ => none

/-- `\n{3,}` → `'\n\n'`. -/
def tryTripleNl (t : Str) : Option (Str × Str) :=
  let nl := t.takeWhile (· = '\n')
  if 3 ≤ nl.length then some (strOf "\n\n", t.drop nl.length) else none

/-- `HTMLSimplifier.normalizeWhitespace`. -/
def normalizeWhitespace (html : Str) : Str :=
  let a := runReplaceR tryMultiWs html
  let b := runReplaceR tryGtWsLt a
  let c := trimS b
  let d := runReplaceR (tryLit (strOf "</div>") (strOf "</div>" ++ ['\n'])) c
  runReplaceR tryTripleNl d

/-- `HTMLSimplifier.simplify`. -/
def simplify (reactCode : Str) : Str :=
  normalizeWhitespace
    (simplifyImages
      (collapseLayoutWrappers
        (removeInlineStyles
          (removeClassAttributes
            (convertReactToHTML
              (extractJSX reactCode))))))

/-! ## Figma node model

`FigmaNode` is a mutual inductive (node / node-list) so that the tree
traversals compile by structural recursion.  Numeric style/geometry data
is modelled with integers (every threshold the source compares against is
integral, and `Math.round` is then the identity).  `style` and its
`fontSize`/`fontWeight` members are flattened into one `Option` each
(`n.style?.fontSize` ≡ `fontSize`), `fills` keeps only the fill types,
and `absoluteBoundingBox` keeps only width/height (the only components
the embedded helpers read).  Reference (in)equality on nodes (`!==`,
`includes`) is modelled by structural equality; the nodes appearing in
concrete witnesses are pairwise structurally distinct, so the two agree
there. -/

mutual
inductive FigmaNode where
  | mk (name : Str) (ntype : Str) (characters : Option Str)
       (fontSize : Option Int) (fontWeight : Option Int)
       (fills : List Str) (bboxWH : Option (Int × Int))
       (backgroundColor : Bool) (children : FNodes)
inductive FNodes where
  | nil
  | cons (head : FigmaNode) (tail : FNodes)
end
deriving instance DecidableEq for FigmaNode

def FigmaNode.name : FigmaNode → Str
  | .mk n _ _ _ _ _ _ _ _ => n

def FigmaNode.ntype : FigmaNode → Str
  | .mk _ t _ _ _ _ _ _ _ => t

def FigmaNode.characters : FigmaNode → Option Str
  | .mk _ _ c _ _ _ _ _ _ => c

def FigmaNode.fontSize : FigmaNode → Option Int
  | .mk _ _ _ f _ _ _ _ _ => f

def FigmaNode.fontWeight : FigmaNode → Option Int
  | .mk _ _ _ _ w _ _ _ _ => w

def FigmaNode.fills : FigmaNode → List Str
  | .mk _ _ _ _ _ f _ _ _ => f

def FigmaNode.bboxWH : FigmaNode → Option (Int × Int)
  | .mk _ _ _ _ _ _ b _ _ => b

def FigmaNode.bgColor : FigmaNode → Bool
  | .mk _ _ _ _ _ _ _ g _ => g

def FNodes.toList : FNodes → List FigmaNode
  | .nil => []
  | .cons h t => h :: FNodes.toList t

def FNodes.ofList : List FigmaNode → FNodes
  | [] => .nil
  | h :: t => .cons h (FNodes.ofList t)

def FigmaNode.childrenN : FigmaNode → FNodes
  | .mk _ _ _ _ _ _ _ _ c => c

def FigmaNode.children (n : FigmaNode) : List FigmaNode := n.childrenN.toList

/-- JS `x || d` on an optional number (`0` is falsy). -/
def jsOrInt (v : Option Int) (d : Int) : Int :=
  match v with
  | some x => if x = 0 then d else x
  | none => d

/- Pre-order traversal (the push-on-entry `traverse` pattern used by the
`findAll*` helpers). -/
mutual
def allNodes : FigmaNode → List FigmaNode
  | .mk nm tp ch fs fw fl bb bg cs =>
    FigmaNode.mk nm tp ch fs fw fl bb bg cs :: allNodesL cs
def allNodesL : FNodes → List FigmaNode
  | .nil => []
  | .cons h t => allNodes h ++ allNodesL t
end

def findAllTextNodes (n : FigmaNode) : List FigmaNode :=
  (allNodes n).filter (fun m => m.ntype == strOf "TEXT")

mutual
def hasTextChild : FigmaNode → Bool
  | .mk _ tp _ _ _ _ _ _ cs => tp == strOf "TEXT" || hasTextChildL cs
def hasTextChildL : FNodes → Bool
  | .nil => false
  | .cons h t => hasTextChild h || hasTextChildL t
end

def nameHasAny (kws : List Str) (n : FigmaNode) : Bool :=
  let lname := lowerStr n.name
  kws.any (fun k => containsSub k lname)

def rectImage (n : FigmaNode) : Bool :=
  n.ntype == strOf "RECTANGLE" && n.fills.any (fun f => f == strOf "IMAGE")

def compInstIconName (n : FigmaNode) : Bool :=
  (n.ntype == strOf "COMPONENT" || n.ntype == strOf "INSTANCE") &&
  nameHasAny [strOf "icon", strOf "image", strOf "logo", strOf "svg", strOf "graphic"] n

def frameGroupIconName (n : FigmaNode) : Bool :=
  (n.ntype == strOf "FRAME" || n.ntype == strOf "GROUP") &&
  nameHasAny [strOf "icon", strOf "image"] n

/-- A small FRAME/GROUP whose single child is a vector (the broadening
icon heuristic). -/
def smallVectorFrame (n : FigmaNode) : Bool :=
  (n.ntype == strOf "FRAME" || n.ntype == strOf "GROUP") &&
  (match n.children with
   | [c] =>
     (c.ntype == strOf "VECTOR" || c.ntype == strOf "BOOLEAN_OPERATION") &&
     (match n.bboxWH with
      | some wh => decide (wh.1 ≤ 32) && decide (wh.2 ≤ 32)
      | none => false)
   | _ => false)

/-- Membership in the `iconParentSet` after the node's visit. -/
def isIconParent (n : FigmaNode) : Bool :=
  compInstIconName n || frameGroupIconName n || smallVectorFrame n

/-- The per-node pushes of `findAllImageNodes`'s traversal, in source
order; the last branch skips nodes already pushed by the name branch. -/
def imagePushes (parentIcon : Bool) (n : FigmaNode) : List FigmaNode :=
  (if rectImage n then [n] else []) ++
  (if (n.ntype == strOf "VECTOR" || n.ntype == strOf "BOOLEAN_OPERATION") && !parentIcon then [n] else []) ++
  (if compInstIconName n then [n] else []) ++
  (if frameGroupIconName n then [n] else []) ++
  (if smallVectorFrame n && !frameGroupIconName n then [n] else [])

mutual
def collectImages (parentIcon : Bool) : FigmaNode → List FigmaNode
  | .mk nm tp ch fs fw fl bb bg cs =>
    imagePushes parentIcon (FigmaNode.mk nm tp ch fs fw fl bb bg cs) ++
      collectImagesL (isIconParent (FigmaNode.mk nm tp ch fs fw fl bb bg cs)) cs
def collectImagesL (parentIcon : Bool) : FNodes → List FigmaNode
  | .nil => []
  | .cons h t => collectImages parentIcon h ++ collectImagesL parentIcon t
end

def findAllImageNodes (n : FigmaNode) : List FigmaNode := collectImages false n

def serviceKeywords : List Str :=
  [strOf "internet", strOf "tv", strOf "voice", strOf "mobile", strOf "offer",
   strOf "special offer", strOf "xfinity home offer"]

def buttonNodePred (n : FigmaNode) : Bool :=
  let lname := lowerStr n.name
  let nameCheck := containsSub (strOf "button") lname || containsSub (strOf "cta") lname
  let frameCheck :=
    (n.ntype == strOf "FRAME" || n.ntype == strOf "GROUP" || n.ntype == strOf "COMPONENT") &&
    n.bgColor && hasTextChild n &&
    (findAllTextNodes n).any (fun t =>
      let txt := lowerStr (t.characters.getD [])
      actionKeywords.any (fun k => containsSub k txt) && !(serviceKeywords.contains txt))
  nameCheck || frameCheck

def findAllButtonNodes (n : FigmaNode) : List FigmaNode :=
  (allNodes n).filter buttonNodePred

/-- `findMainHeading`: the running strict maximum of `fontSize || 0`
starting from `null`. -/
def findMainHeading (textNodes : List FigmaNode) : Option FigmaNode :=
  textNodes.foldl (fun acc n =>
    let cur := jsOrInt n.fontSize 0
    let big := match acc with
      | some m => jsOrInt m.fontSize 0
      | none => 0
    if big < cur then some n else acc) none

/-- The multiline list-marker test `[•\-*]\s+|^\d+\.\s+` with `/m`. -/
def hasListMarkerAux : Bool → Str → Bool
  | _, [] => false
  | atStart, c :: cs =>
    (if c = '•' || c = '-' || c = '*' then
        (match cs with
         | d :: _ => isJsWs d
         | [] => false)
      else false) ||
    (atStart && c.isDigit &&
      (let ds := (c :: cs).takeWhile Char.isDigit
       match (c :: cs).drop ds.length with
       | '.' :: r2 =>
         (match r2 with
          | e :: _ => isJsWs e
          | [] => false)
       | _ => false)) ||
    hasListMarkerAux (c = '\n' || c = '\r' || c.toNat = 0x2028 || c.toNat = 0x2029) cs

def hasListMarker (s : Str) : Bool := hasListMarkerAux true s

def joinNl (texts : List Str) : Str := List.intercalate ['\n'] texts

structure ContainerTextContent where
  hasSimpleText : Bool
  hasRichText : Bool
deriving DecidableEq

def findContainerTextContent (textNodes : List FigmaNode)
    (mainHeading : Option FigmaNode) : ContainerTextContent :=
  let otherTextNodes := match mainHeading with
    | some m => textNodes.filter (fun n => !(n == m))
    | none => textNodes
  if otherTextNodes = [] then ⟨false, false⟩
  else
    let allText := joinNl (otherTextNodes.map (fun n => n.characters.getD []))
    let hasList := hasListMarker allText
    let paragraphs := (List.splitOn '\n' allText).filter (fun l => 20 < (trimS l).length)
    let hasMulti := 1 < paragraphs.length
    let hasRich := hasList || hasMulti
    ⟨!hasRich && trimS allText ≠ [], hasRich⟩

structure StructuredTextContent where
  hasList : Bool
  hasMultipleParagraphs : Bool
  hasSimpleText : Bool
deriving DecidableEq

def findStructuredTextContent (textNodes : List FigmaNode) : StructuredTextContent :=
  let allText := joinNl (textNodes.map (fun n => n.characters.getD []))
  let hasList := hasListMarker allText ||
    1 < ((List.splitOn '\n' allText).filter (fun l =>
      (strOf "•").isPrefixOf (trimS l) || (strOf "-").isPrefixOf (trimS l))).length
  let paragraphs := (List.splitOn '\n' allText).filter (fun l => 20 < (trimS l).length)
  let hasMulti := 1 < paragraphs.length && !hasList
  ⟨hasList, hasMulti, !hasList && !hasMulti && trimS allText ≠ []⟩

def startsNumDot (s : Str) : Bool :=
  let ds := s.takeWhile Char.isDigit
  ds ≠ [] &&
    (match s.drop ds.length with
     | '.' :: _ => true
     | _ => false)

def findRepeatingHeadings (textNodes : List FigmaNode) : List FigmaNode :=
  textNodes.filter (fun n =>
    let text := n.characters.getD []
    let fs := jsOrInt n.fontSize 0
    let fw := jsOrInt n.fontWeight 400
    (decide (14 < fs) || decide (500 ≤ fw)) && decide (text.length < 100) &&
    !(strOf "•").isPrefixOf text && !(strOf "-").isPrefixOf text && !startsNumDot text)

def extractButtonText (n : FigmaNode) : Option Str :=
  match (findAllTextNodes n).head? with
  | some t =>
    match t.characters with
    | some c => if c = [] then none else some c
    | none => none
  | none => none

/-- The keyword list of `findSiblingItemFrames` / `findRepeatedNamedContainers`. -/
def siblingActionKeywords : List Str :=
  [strOf "add", strOf "edit", strOf "remove", strOf "delete", strOf "view",
   strOf "learn more", strOf "upgrade", strOf "select", strOf "choose"]

def isFGC (n : FigmaNode) : Bool :=
  n.ntype == strOf "FRAME" || n.ntype == strOf "GROUP" || n.ntype == strOf "COMPONENT"

/-- Append elements not already present (the `result.includes(q)` dedup). -/
def appendNew [DecidableEq α] (acc : List α) : List α → List α
  | [] => acc
  | q :: rest => appendNew (if acc.contains q then acc else acc ++ [q]) rest

def findSiblingItemFrames (root : FigmaNode) : List FigmaNode :=
  let parents := (allNodes root).filter (fun n => decide (1 < n.children.length))
  parents.foldl (fun acc parent =>
    let candidates := parent.children.filter isFGC
    let qualified := candidates.filter (fun f =>
      let hasHeading := (findAllTextNodes f).any (fun t => decide (18 ≤ jsOrInt t.fontSize 0))
      let hasActionText := (findAllTextNodes f).any (fun t =>
        siblingActionKeywords.any (fun k => containsSub k (lowerStr (t.characters.getD []))))
      let hasButton := !(findAllButtonNodes f).isEmpty
      hasHeading && (hasActionText || hasButton))
    if 2 ≤ qualified.length then appendNew acc qualified else acc) []

def sizeSignature (c : FigmaNode) : Str :=
  match c.bboxWH with
  | some wh => intStr wh.1 ++ 'x' :: intStr wh.2
  | none => strOf "nosize"

def findCandidateItemContainers (node : FigmaNode) : List FigmaNode :=
  let containers := (allNodes node).filter (fun n =>
    isFGC n && !n.children.isEmpty &&
    (n.children.any (fun c =>
        c.ntype == strOf "TEXT" &&
        (match c.fontSize with
         | some f => decide (f ≠ 0) && decide (18 ≤ f)
         | none => false)) ||
      !(findAllImageNodes n).isEmpty || !(findAllButtonNodes n).isEmpty))
  let sigs := dedupKeepFirst (containers.map sizeSignature)
  sigs.flatMap (fun s =>
    let g := containers.filter (fun c => sizeSignature c == s)
    if 2 ≤ g.length then g else [])

def findItemContainerNodes (root : FigmaNode) : List FigmaNode :=
  let sib := findSiblingItemFrames root
  if 2 ≤ sib.length then sib
  else dedupKeepFirst (findCandidateItemContainers root)

/-- `sanitizeBlockName`: lower-case, drop everything outside
`[a-z0-9\s-]`, whitespace runs → `-`, hyphen runs → `-`, strip one
leading and one trailing hyphen. -/
def keepBlockNameChar (c : Char) : Bool :=
  ('a' ≤ c && c ≤ 'z') || ('0' ≤ c && c ≤ '9') || isJsWs c || c = '-'

def collapseRunsAux (p : Char → Bool) (repl : Char) : Bool → Str → Str
  | _, [] => []
  | inRun, c :: cs =>
    if p c then
      if inRun then collapseRunsAux p repl true cs
      else repl :: collapseRunsAux p repl true cs
    else c :: collapseRunsAux p repl false cs

def stripLeadHyphen (s : Str) : Str :=
  match s with
  | c :: r => if c = '-' then r else c :: r
  | [] => []

def stripTrailHyphen (a : Str) : Str :=
  match a.getLast? with
  | some c => if c = '-' then a.dropLast else a
  | none => a

def stripEndHyphens (s : Str) : Str := stripTrailHyphen (stripLeadHyphen s)

def sanitizeBlockName (name : Str) : Str :=
  stripEndHyphens
    (collapseRunsAux (fun c => c = '-') '-' false
      (collapseRunsAux isJsWs '-' false
        ((name.map toLowerJs).filter keepBlockNameChar)))

/-! ## Raw-code multi-item extraction (`parseRawCodeForMultiItemStructure`) -/

structure RawMultiItem where
  containerHeading : Option Str
  containerIconPresent : Bool
  itemHeadings : List Str
  itemDescriptions : List Str
  itemLists : List (List Str)
  itemIconsPresent : Bool
  hasItemCTAs : Bool
deriving DecidableEq

/-- Consume `data-name=["']W["']` case-insensitively (needle lower-case),
returning the rest. -/
def tryDataNameQuotedCI (w : Str) (s : Str) : Option Str :=
  if startsWithCI (strOf "data-name=") s then
    match s.drop 10 with
    | q :: r =>
      if isQuote q then
        if startsWithCI w r then
          match r.drop w.length with
          | q2 :: rest => if isQuote q2 then some rest else none
          | [] => none
        else none
      else none
    | [] => none
  else none

/-- Consume `data-name=["']W(?: \d+)?["']` case-insensitively. -/
def tryDataNameNumCI (w : Str) (s : Str) : Option Str :=
  if startsWithCI (strOf "data-name=") s then
    match s.drop 10 with
    | q :: r =>
      if isQuote q then
        if startsWithCI w r then
          let r2 := r.drop w.length
          let longM : Option Str :=
            match r2 with
            | ' ' :: r3 =>
              let ds := r3.takeWhile Char.isDigit
              if ds ≠ [] then
                match r3.drop ds.length with
                | q2 :: rest => if isQuote q2 then some rest else none
                | [] => none
              else none
            | _ => none
          match longM with
          | some rest => some rest
          | none =>
            match r2 with
            | q2 :: rest => if isQuote q2 then some rest else none
            | [] => none
        else none
      else none
    | [] => none
  else none

/-- `<p[^<]*>(CAP)CLOSE` (case-insensitive open and close).  The greedy
`[^<]*` backtracks to `>` positions within the non-`<` run, from last to
first, and for each the lazy capture runs to the earliest close. -/
def tryPOpenCaptureR (dotOnly : Bool) (closeTag : Str) (t : Str) : Option (Str × Str) :=
  if startsWithCI (strOf "<p") t then
    let r := t.drop 2
    let run := ltRun r
    let gts := ((List.range run.length).filter (fun i => run.get? i = some '>')).reverse
    gts.findSome? (fun i => lazyCapture (closeLitCI closeTag) dotOnly (r.drop (i + 1)))
  else none

def tryPOpenCapture (dotOnly : Bool) (closeTag : Str) (t : Str) : Option Str :=
  (tryPOpenCaptureR dotOnly closeTag t).map (·.1)

/-- `data-name=["']CardTitle["'][\s\S]*?<p[^<]*>(.*?)<\/p>` (`/i`). -/
def tryCardTitleHeading (t : Str) : Option Str :=
  (tryDataNameQuotedCI (strOf "cardtitle") t).bind
    (findFirstScan (tryPOpenCapture true (strOf "</p>")))

/-- `<img[^>]*src=(?:"[^"]+"|{[^}]+})[^>]*>` (`/i`). -/
def tryImgSrc (t : Str) : Option Unit :=
  if startsWithCI (strOf "<img") t then
    let r := t.drop 4
    let run := r.takeWhile (· ≠ '>')
    let ks := ((List.range run.length).filter (fun k =>
      startsWithCI (strOf "src=") (r.drop k))).reverse
    ks.findSome? (fun k =>
      let rv := r.drop (k + 4)
      match rv with
      | c :: r2 =>
        if c = '"' then
          let v := r2.takeWhile (· ≠ '"')
          if v ≠ [] then
            match r2.drop v.length with
            | _ :: r3 => (gtSkip r3).map (fun _ => ())
            | [] => none
          else none
        else if c = lbrace then
          let v := r2.takeWhile (· ≠ rbrace)
          if v ≠ [] then
            match r2.drop v.length with
            | _ :: r3 => (gtSkip r3).map (fun _ => ())
            | [] => none
          else none
        else none
      | [] => none)
  else none

def cardTitleIconTest (raw : Str) : Bool :=
  (findFirstScan (fun t =>
    (tryDataNameQuotedCI (strOf "cardtitle") t).bind (findFirstScan tryImgSrc)) raw).isSome

/-- `data-name=["']Icon["'][^>]*>\s*<img` (`/i`) after a CardTitle. -/
def tryIconThenImg (t : Str) : Option Unit :=
  (tryDataNameQuotedCI (strOf "icon") t).bind (fun rest =>
    (gtSkip rest).bind (fun r1 =>
      if startsWithCI (strOf "<img") (r1.dropWhile isJsWs) then some () else none))

def cardTitleIconWrapperTest (raw : Str) : Bool :=
  (findFirstScan (fun t =>
    (tryDataNameQuotedCI (strOf "cardtitle") t).bind (findFirstScan tryIconThenImg)) raw).isSome

/-- `data-name=["']Header(?:\s*\+\s*Body)?["']` (`/i`). -/
def tryHeaderName (t : Str) : Option Str :=
  if startsWithCI (strOf "data-name=") t then
    match t.drop 10 with
    | q :: r =>
      if isQuote q && startsWithCI (strOf "header") r then
        let r2 := r.drop 6
        let longM : Option Str :=
          match (r2.dropWhile isJsWs) with
          | c :: r3 =>
            if c = '+' then
              let w2 := r3.dropWhile isJsWs
              if startsWithCI (strOf "body") w2 then
                match w2.drop 4 with
                | q2 :: rest => if isQuote q2 then some rest else none
                | [] => none
              else none
            else none
          | [] => none
        match longM with
        | some rest => some rest
        | none =>
          match r2 with
          | q2 :: rest => if isQuote q2 then some rest else none
          | [] => none
      else none
    | [] => none
  else none

def headerHeading (raw : Str) : Option Str :=
  findFirstScan (fun t =>
    (tryHeaderName t).bind (findFirstScan (tryPOpenCapture true (strOf "</p>")))) raw

def firstPosAux (g : Str → Option Unit) : Nat → Str → Option Nat
  | i, [] =>
    match g [] with
    | some _ => some i
    | none => none
  | i, c :: cs =>
    match g (c :: cs) with
    | some _ => some i
    | none => firstPosAux g (i + 1) cs

def firstPosOf (g : Str → Option Unit) (s : Str) : Option Nat := firstPosAux g 0 s

/-- The split pattern `data-name=["'](?:Container|Card|Products)["']` (`/i`). -/
def tryCCP (t : Str) : Option Unit :=
  match tryDataNameQuotedCI (strOf "container") t with
  | some _ => some ()
  | none =>
    match tryDataNameQuotedCI (strOf "card") t with
    | some _ => some ()
    | none => (tryDataNameQuotedCI (strOf "products") t).map (fun _ => ())

def preItemsOf (raw : Str) : Str :=
  match firstPosOf tryCCP raw with
  | some i => raw.take i
  | none => raw

/-- `<p[^>]*>([A-Z][^<]{8,180})<\/p>` (case-sensitive). -/
def tryAltP (t : Str) : Option Str :=
  if (strOf "<p").isPrefixOf t then
    (gtSkip (t.drop 2)).bind (fun r1 =>
      match r1 with
      | c :: r2 =>
        if 'A' ≤ c ∧ c ≤ 'Z' then
          let run := ltRun r2
          if 8 ≤ run.length ∧ run.length ≤ 180 ∧
             (strOf "</p>").isPrefixOf (r2.drop run.length) then
            some (c :: run)
          else none
        else none
      | [] => none)
  else none

def isUpperAZ (c : Char) : Bool := 'A' ≤ c && c ≤ 'Z'

def isLowerAZ (c : Char) : Bool := 'a' ≤ c && c ≤ 'z'

def alnumSp (c : Char) : Bool :=
  isUpperAZ c || isLowerAZ c || ('0' ≤ c && c ≤ '9') || c = ' '

/-- `(Enhanced [A-Za-z0-9 ]{3,120}|Features? [A-Za-z0-9 ]{3,120}|[A-Z][a-z]+ [A-Z][a-z]+)`. -/
def tryPhrase (t : Str) : Option Str :=
  if (strOf "Enhanced ").isPrefixOf t then
    let cap := ((t.drop 9).takeWhile alnumSp).take 120
    if 3 ≤ cap.length then some (strOf "Enhanced " ++ cap) else none
  else if (strOf "Features ").isPrefixOf t then
    let cap := ((t.drop 9).takeWhile alnumSp).take 120
    if 3 ≤ cap.length then some (strOf "Features " ++ cap) else none
  else if (strOf "Feature ").isPrefixOf t then
    let cap := ((t.drop 8).takeWhile alnumSp).take 120
    if 3 ≤ cap.length then some (strOf "Feature " ++ cap) else none
  else
    match t with
    | c :: r =>
      if isUpperAZ c then
        let low := r.takeWhile isLowerAZ
        if low ≠ [] ∧ (match r.drop low.length with
            | ' ' :: _ => (true : Bool)
            | _ => false) = true then
          match r.drop (low.length + 1) with
          | c2 :: r2 =>
            if isUpperAZ c2 then
              let low2 := r2.takeWhile isLowerAZ
              if low2 ≠ [] then some (c :: low ++ ' ' :: c2 :: low2) else none
            else none
          | [] => none
        else none
      else none
    | [] => none

/-- `''` is falsy: collapse an empty extracted string to `none`. -/
def jsOpt (t : Str) : Option Str := if t = [] then none else some t

/-- `<div[^>]*data-name=["']Card["'][^>]*>` (`/gi`); value is the match,
consumed length is the match length. -/
def tryCardOpen (t : Str) : Option (Unit × Str) :=
  if startsWithCI (strOf "<div") t then
    let r0 := t.drop 4
    let run := r0.takeWhile (· ≠ '>')
    if (List.range run.length).any (fun k =>
        (tryDataNameQuotedCI (strOf "card") (run.drop k)).isSome) then
      match r0.drop run.length with
      | '>' :: rest => some ((), rest)
      | _ => none
    else none
  else none

/-- `<Card\s+` (`/gi`). -/
def tryCardComp (t : Str) : Option (Unit × Str) :=
  if startsWithCI (strOf "<card") t then
    let ws := (t.drop 5).takeWhile isJsWs
    if ws ≠ [] then some ((), (t.drop 5).drop ws.length) else none
  else none

/-- `title=["']([^"']+)["']` / `text=["']([^"']+)["']` (case-sensitive). -/
def tryPropCapture (prop : Str) (t : Str) : Option Str :=
  if prop.isPrefixOf t then
    match t.drop prop.length with
    | q :: r =>
      if isQuote q then
        let v := r.takeWhile (fun c => !isQuote c)
        if v ≠ [] ∧ r.drop v.length ≠ [] then some v else none
      else none
    | [] => none
  else none

/-- `data-name=["'](?:Heading(?: \d+)?|Title|Text|Paragraph)["']` (case-sensitive). -/
def tryHTTPName (t : Str) : Option Unit :=
  if (strOf "data-name=").isPrefixOf t then
    match t.drop 10 with
    | q :: r =>
      if isQuote q then
        let headingM : Option Unit :=
          if (strOf "Heading").isPrefixOf r then
            let r2 := r.drop 7
            let longM : Option Unit :=
              match r2 with
              | ' ' :: r3 =>
                let ds := r3.takeWhile Char.isDigit
                if ds ≠ [] then
                  match r3.drop ds.length with
                  | q2 :: _ => if isQuote q2 then some () else none
                  | [] => none
                else none
              | _ => none
            match longM with
            | some _ => some ()
            | none =>
              match r2 with
              | q2 :: _ => if isQuote q2 then some () else none
              | [] => none
          else none
        match headingM with
        | some _ => some ()
        | none =>
          let quotedLit := fun (w : Str) =>
            if w.isPrefixOf r then
              match r.drop w.length with
              | q2 :: _ => if isQuote q2 then some () else none
              | [] => none
            else none
          match quotedLit (strOf "Title") with
          | some _ => some ()
          | none =>
            match quotedLit (strOf "Text") with
            | some _ => some ()
            | none => quotedLit (strOf "Paragraph")
      else none
    | [] => none
  else none

def segHasHeadingOrPara (seg : Str) : Bool := (findFirstScan tryHTTPName seg).isSome

/-- `data-name=["']W(?: \d+)?["'][^>]*>[\s\S]*?<p[^<]*>([\s\S]*?)<\/p>` (`/i`). -/
def tryNamedHeadingCap (w : Str) (withNum : Bool) (t : Str) : Option Str :=
  ((if withNum then tryDataNameNumCI w t else tryDataNameQuotedCI w t).bind gtSkip).bind
    (findFirstScan (tryPOpenCapture false (strOf "</p>")))

def headingClassKws2 : List Str :=
  [strOf "font-bold", strOf "font-medium", strOf "font-semibold",
   strOf "text-xl", strOf "text-2xl", strOf "text-3xl", strOf "text-4xl",
   strOf "heading"]

/-- `<p[^<]*class="[^"]*(?:font-(?:bold|medium|semibold)|text-(?:xl|2xl|3xl|4xl)|heading)[^"]*"[^<]*>([\s\S]*?)<\/p>` (`/i`). -/
def tryPClassHeading (t : Str) : Option Str :=
  if startsWithCI (strOf "<p") t then
    let r := t.drop 2
    let run := ltRun r
    let ks := ((List.range run.length).filter (fun k =>
      startsWithCI (strOf "class=" ++ ['"']) (r.drop k))).reverse
    ks.findSome? (fun k =>
      let rq := r.drop (k + 7)
      let vrun := rq.takeWhile (· ≠ '"')
      if containsAny headingClassKws2 (lowerStr vrun) then
        match rq.drop vrun.length with
        | _ :: r2 =>
          let run2 := ltRun r2
          let gts := ((List.range run2.length).filter (fun i => run2.get? i = some '>')).reverse
          gts.findSome? (fun i =>
            (lazyCapture (closeLitCI (strOf "</p>")) false (r2.drop (i + 1))).map (·.1))
        | [] => none
      else none)
  else none

/-- `data-name=["']W["'][\s\S]{0,800}?<p[^<]*>([\s\S]*?)<\/p>` (`/i`). -/
def tryNamedParaCap (w : Str) (t : Str) : Option Str :=
  (tryDataNameQuotedCI w t).bind
    (lazySearchB (tryPOpenCapture false (strOf "</p>")) 800)

/-- `^•\s*` anchored removal. -/
def dropLeadingBullet (s : Str) : Str :=
  match s with
  | '•' :: r => r.dropWhile isJsWs
  | _ => s

/-- `<p[^<]*>([^<]*•[^<]*)<\/p>` (`/g`, case-sensitive): (capture, rest). -/
def tryBulletP (t : Str) : Option (Str × Str) :=
  if (strOf "<p").isPrefixOf t then
    let r := t.drop 2
    let run := ltRun r
    let gts := ((List.range run.length).filter (fun i => run.get? i = some '>')).reverse
    gts.findSome? (fun i =>
      let after := r.drop (i + 1)
      let run2 := ltRun after
      if run2.contains '•' ∧ (strOf "</p>").isPrefixOf (after.drop run2.length) then
        some (run2, after.drop (run2.length + 4))
      else none)
  else none

def bulletsOfSeg (seg : Str) : List Str :=
  (runCollect (toScan tryBulletP) seg).filterMap (fun b =>
    jsOpt (dropLeadingBullet (trimS (stripTagsStar b))))

/-- `data-name=["'][^"']*(?:Button|Type=Primary)[^"']*["']` test. -/
def tryBtnName (t : Str) : Option Unit :=
  if (strOf "data-name=").isPrefixOf t then
    match t.drop 10 with
    | q :: r =>
      if isQuote q then
        let run := r.takeWhile (fun c => !isQuote c)
        if (containsSub (strOf "Button") run || containsSub (strOf "Type=Primary") run) &&
           !(r.drop run.length).isEmpty then
          some ()
        else none
      else none
    | [] => none
  else none

def segHasButton (seg : Str) : Bool := (findFirstScan tryBtnName seg).isSome

/-- Intermediate card-extraction accumulator. -/
structure CardScan where
  hs : List Str
  ds : List Str
  ls : List (List Str)
  ics : List Bool
deriving DecidableEq

/-- Process one `Card` div segment (the div-pattern branch body). -/
def processCardDivSeg (seg : Str) (acc : CardScan) : CardScan :=
  if !segHasHeadingOrPara seg then acc
  else
    let hM := findFirstScan (tryNamedHeadingCap (strOf "heading") true) seg
    let titleM := findFirstScan (tryNamedHeadingCap (strOf "title") false) seg
    let hGen := findFirstScan tryPClassHeading seg
    let heading : Option Str :=
      match hM with
      | some x => some (trimS (stripTagsStar x))
      | none =>
        match titleM with
        | some x => some (trimS (stripTagsStar x))
        | none => hGen.map (fun x => trimS (stripTagsStar x))
    let hs2 := match heading with
      | some h => if h ≠ [] ∧ h.length ≤ 150 then acc.hs ++ [h] else acc.hs
      | none => acc.hs
    let paraM := findFirstScan (tryNamedParaCap (strOf "paragraph")) seg
    let textM := findFirstScan (tryNamedParaCap (strOf "text")) seg
    let ds2 :=
      match paraM with
      | some x =>
        let d := trimS (stripTagsStar x)
        if d ≠ [] ∧ 20 ≤ d.length ∧ d.length ≤ 500 then acc.ds ++ [d] else acc.ds
      | none =>
        match textM with
        | some x =>
          let d := trimS (stripTagsStar x)
          if d ≠ [] ∧ 20 ≤ d.length ∧ d.length ≤ 500 then acc.ds ++ [d] else acc.ds
        | none => acc.ds
    let hasImageWrapper := containsAny (quoteCombos (strOf "Image")) seg
    let hasIconWrapper := containsAny (quoteCombos (strOf "Icon")) seg
    let hasImgTag := (findFirstScan (fun t =>
      if (strOf "<img").isPrefixOf t then
        (if containsSub (strOf "src=") ((t.drop 4).takeWhile (· ≠ '>')) then some () else none)
      else none) seg).isSome
    let ics2 := acc.ics ++ [hasImageWrapper || hasIconWrapper || hasImgTag]
    let bullets := bulletsOfSeg seg
    let ls2 := if bullets ≠ [] then acc.ls ++ [bullets] else acc.ls
    ⟨hs2, ds2, ls2, ics2⟩

/-- Process one `<Card …` component usage segment (the React branch body). -/
def processCardCompSeg (seg : Str) (acc : CardScan) : CardScan :=
  let hs2 := match findFirstScan (tryPropCapture (strOf "title=")) seg with
    | some v => if v ≠ [] ∧ v.length ≤ 150 then acc.hs ++ [v] else acc.hs
    | none => acc.hs
  let ds2 := match findFirstScan (tryPropCapture (strOf "text=")) seg with
    | some v => if v ≠ [] ∧ 20 ≤ v.length ∧ v.length ≤ 500 then acc.ds ++ [v] else acc.ds
    | none => acc.ds
  let ics2 := if containsSub (strOf "icon=" ++ [lbrace]) seg then acc.ics ++ [true] else acc.ics
  ⟨hs2, ds2, acc.ls, ics2⟩

/-- `<div[^>]*data-name=["']Container["'][^>]*>([\s\S]*?)<\/div>` (`/gi`). -/
def tryContainerSeg (t : Str) : Option (Str × Str) :=
  if startsWithCI (strOf "<div") t then
    let r0 := t.drop 4
    let run := r0.takeWhile (· ≠ '>')
    if (List.range run.length).any (fun k =>
        (tryDataNameQuotedCI (strOf "container") (run.drop k)).isSome) then
      match r0.drop run.length with
      | '>' :: r1 => lazyCapture (closeLitCI (strOf "</div>")) false r1
      | _ => none
    else none
  else none

/-- Container-loop body: heading (deduplicated against existing) and bullets. -/
def processContainerSeg (seg : Str) (acc : CardScan) : CardScan :=
  let hM := findFirstScan (fun t =>
    (tryDataNameNumCI (strOf "heading") t).bind
      (findFirstScan (tryPOpenCapture true (strOf "</p>")))) seg
  let hs2 := match hM with
    | some x =>
      let h := trimS (stripTagsStar x)
      if h ≠ [] ∧ h.length ≤ 150 ∧ ¬ acc.hs.contains h then acc.hs ++ [h] else acc.hs
    | none => acc.hs
  let bullets := bulletsOfSeg seg
  let ls2 := if bullets ≠ [] then acc.ls ++ [bullets] else acc.ls
  ⟨hs2, acc.ds, ls2, acc.ics⟩

/-- Global fallback heading: `data-name=["']Heading(?: \d+)?["'][\s\S]*?<p[^<]*>(.*?)<\/p>` (`/gi`),
with the consumed length running through the closing `</p>`. -/
def tryGlobalHeading (t : Str) : Option (Str × Str) :=
  (tryDataNameNumCI (strOf "heading") t).bind
    (findFirstScan (tryPOpenCaptureR true (strOf "</p>")))

/-- `<p[^<]*>(\s*•\s*[^<]{2,200})<\/p>` (`/g`, case-sensitive). -/
def tryGlobalBullet (t : Str) : Option (Str × Str) :=
  if (strOf "<p").isPrefixOf t then
    let r := t.drop 2
    let run := ltRun r
    let gts := ((List.range run.length).filter (fun i => run.get? i = some '>')).reverse
    gts.findSome? (fun i =>
      let after := r.drop (i + 1)
      let ws1 := after.takeWhile isJsWs
      match after.drop ws1.length with
      | '•' :: r2 =>
        let ws2 := r2.takeWhile isJsWs
        let run3 := ltRun (r2.drop ws2.length)
        if 2 ≤ run3.length ∧ run3.length ≤ 200 ∧
           (strOf "</p>").isPrefixOf ((r2.drop ws2.length).drop run3.length) then
          some (ws1 ++ '•' :: ws2 ++ run3, ((r2.drop ws2.length).drop run3.length).drop 4)
        else none
      | _ => none)
  else none

/-- `DesignAnalyzer.parseRawCodeForMultiItemStructure`. -/
def parseRawCodeForMultiItemStructure (raw : Str) : RawMultiItem :=
  -- 1. container heading (each fallback fires when the previous produced
  -- a falsy — i.e. empty — value)
  let ch1 : Option Str := (findFirstScan tryCardTitleHeading raw).bind (fun x =>
    jsOpt (trimS (stripTagsStar x)))
  let containerIconPresent :=
    cardTitleIconTest raw || (!cardTitleIconTest raw && cardTitleIconWrapperTest raw)
  let ch2 : Option Str :=
    match ch1 with
    | some h => some h
    | none => (headerHeading raw).bind (fun x => jsOpt (trimS (stripTagsStar x)))
  let ch3 : Option Str :=
    match ch2 with
    | some h => some h
    | none => (findFirstScan tryAltP (preItemsOf raw)).bind (fun x =>
        jsOpt (trimS (stripTagsStar x)))
  let containerHeading : Option Str :=
    match ch3 with
    | some h => some h
    | none => (findFirstScan tryPhrase raw).bind (fun x => jsOpt (trimS x))
  -- 2. item headings / descriptions / lists / icons from Card or Container blocks
  let cardDivs := runCollectPos (toScan tryCardOpen) raw
  let cardComps := runCollectPos (toScan tryCardComp) raw
  let cardScan : CardScan :=
    if 0 < cardComps.length ∧ cardDivs.length ≤ 1 then
      cardComps.foldl (fun acc m => processCardCompSeg ((raw.drop m.1).take 800) acc)
        ⟨[], [], [], []⟩
    else
      cardDivs.foldl (fun acc m =>
        processCardDivSeg ((raw.drop (m.1 + m.2.2)).take 2000) acc) ⟨[], [], [], []⟩
  let hasItemCTAs : Bool :=
    if 0 < cardComps.length ∧ cardDivs.length ≤ 1 then 0 < cardComps.length
    else cardDivs.any (fun m => segHasButton ((raw.drop (m.1 + m.2.2)).take 2000))
  -- container-pattern loop
  let afterContainers :=
    (runCollect (toScan tryContainerSeg) raw).foldl (fun acc seg =>
      processContainerSeg seg acc) cardScan
  -- 3. global fallback heading extraction
  let withGlobalHeadings :=
    if afterContainers.hs = [] then
      (runCollect (toScan tryGlobalHeading) raw).foldl (fun hs x =>
        let h := trimS (stripTagsStar x)
        if h ≠ [] ∧ h.length ≤ 150 ∧ ¬ hs.contains h then hs ++ [h] else hs)
        afterContainers.hs
    else afterContainers.hs
  -- 4. global fallback bullet collection
  let finalLists :=
    if ¬ afterContainers.ls.any (fun l => 0 < l.length) then
      let globalBullets := (runCollect (toScan tryGlobalBullet) raw).filterMap (fun b =>
        jsOpt (dropLeadingBullet (trimS (stripTagsStar b))))
      if globalBullets ≠ [] then afterContainers.ls ++ [globalBullets]
      else afterContainers.ls
    else afterContainers.ls
  { containerHeading := containerHeading,
    containerIconPresent := containerIconPresent,
    itemHeadings := withGlobalHeadings,
    itemDescriptions := afterContainers.ds,
    itemLists := finalLists,
    itemIconsPresent := afterContainers.ics ≠ [] && afterContainers.ics.any id,
    hasItemCTAs := hasItemCTAs }

/-! ## Block-analysis data model

The embedded `BlockAnalysis` keeps the members the verified claims refer
to: `blockType`, `blockName`, the content structure's `containerFields`,
`itemFields` and `jsPattern`, and the `debug.codeSignals` signal bag
(`codeSignals`).  The design-token / interaction / accessibility /
variants / configuration-option members and the remaining informational
`debug` entries are not referenced by any claim and are omitted. -/

structure BlockField where
  name : Str
  label : Str
  component : Str
  valueType : Str
  required : Bool
  maxLength : Option Nat
  description : Option Str
deriving DecidableEq

structure BlockAnalysis where
  blockType : Str
  blockName : Str
  containerFields : List BlockField
  itemFields : Option (List BlockField)
  jsPattern : Str
  codeSignals : Option CodeSignals
deriving DecidableEq

def multiItemS : Str := strOf "multi-item"
def singleS : Str := strOf "single"
def cardsS : Str := strOf "cards"
def carouselS : Str := strOf "carousel"
def decoratedS : Str := strOf "decorated"
def referenceS : Str := strOf "reference"
def textCompS : Str := strOf "text"
def richtextS : Str := strOf "richtext"
def stringS : Str := strOf "string"

structure CTAButton where
  text : Str
  primaryType : Bool
  url : Str
deriving DecidableEq

/-- JS `x || '#'` on an optional string. -/
def jsOrHash (v : Option Str) : Str :=
  match v with
  | some h => if h = [] then ['#'] else h
  | none => ['#']

/-- `isCodeBasedListComponent`. -/
def isCodeBasedListComponent (cs : Option CodeSignals) : Bool :=
  match cs with
  | none => false
  | some s =>
    s.semanticCtas.isEmpty &&
      (s.repeatedContainerNames.any (fun p =>
        containsSub (strOf "list") p.1 || containsSub (strOf "item") p.1) ||
       decide (2 ≤ s.distinctHeadings.length))

/-- The action-keyword list of `findContainerCTAs` (includes `get started`). -/
def ctaActionKeywords : List Str := actionKeywords ++ [strOf "get started"]

/-- `findContainerCTAs`. -/
def findContainerCTAs (buttonNodes : List FigmaNode) (a : BlockAnalysis) : List CTAButton :=
  let semanticCtas := match a.codeSignals with
    | some cs => cs.semanticCtas
    | none => []
  if semanticCtas ≠ [] then
    (semanticCtas.take 2).mapIdx (fun i c => ⟨c.text, i = 0, jsOrHash c.href⟩)
  else
    let containerButtons := buttonNodes.filter (fun b =>
      let text := ((extractButtonText b).map lowerStr).getD []
      ctaActionKeywords.any (fun k => containsSub k text))
    (containerButtons.take 2).mapIdx (fun i b =>
      ⟨(extractButtonText b).getD (strOf "CTA " ++ natStr (i + 1)), i = 0, ['#']⟩)

def itemContainerLevelKeywords : List Str :=
  [strOf "view all", strOf "see more", strOf "get started",
   strOf "learn more about us", strOf "contact us"]

def itemActionKeywords : List Str :=
  [strOf "select", strOf "choose", strOf "add to cart", strOf "buy now",
   strOf "subscribe", strOf "upgrade", strOf "view details"]

/-- `findItemCTAs`. -/
def findItemCTAs (node : FigmaNode) (a : Option BlockAnalysis) : List CTAButton :=
  let semanticCtas := match a with
    | some an =>
      match an.codeSignals with
      | some cs => cs.semanticCtas
      | none => []
    | none => []
  let itemSpecific := semanticCtas.filter (fun c =>
    !(itemContainerLevelKeywords.any (fun k => containsSub k (lowerStr c.text))))
  if semanticCtas ≠ [] ∧ itemSpecific ≠ [] then
    (itemSpecific.take 2).mapIdx (fun i c => ⟨c.text, i = 0, jsOrHash c.href⟩)
  else
    let repeatingButtons := (findAllButtonNodes node).filter (fun b =>
      let text := ((extractButtonText b).map lowerStr).getD []
      itemActionKeywords.any (fun k => containsSub k text))
    (repeatingButtons.take 2).mapIdx (fun i b =>
      ⟨(extractButtonText b).getD (strOf "Item CTA " ++ natStr (i + 1)), i = 0, ['#']⟩)

/-! Field constructors, with the labels/descriptions of the source. -/

def mkField (name label component valueType : Str) (required : Bool)
    (maxLength : Option Nat) (description : Option Str) : BlockField :=
  ⟨name, label, component, valueType, required, maxLength, description⟩

def containerHeadingFieldRaw : BlockField :=
  mkField (strOf "heading") (strOf "Container Heading") textCompS stringS true (some 200)
    (some (strOf "Primary heading for the list group"))

def containerIconFieldRaw : BlockField :=
  mkField (strOf "icon") (strOf "Container Icon") referenceS stringS false none
    (some (strOf "Icon image associated with container heading"))

def containerIconAltFieldRaw : BlockField :=
  mkField (strOf "iconAlt") (strOf "Icon Alt Text") textCompS stringS false (some 120)
    (some (strOf "Alt text for the icon (leave blank if purely decorative)."))

def itemHeadingFieldRaw : BlockField :=
  mkField (strOf "heading") (strOf "Item Heading") textCompS stringS true (some 150)
    (some (strOf "Heading text for each item"))

def itemIconFieldRaw : BlockField :=
  mkField (strOf "icon") (strOf "Item Icon") referenceS stringS false none
    (some (strOf "Icon image for the item"))

def itemIconAltFieldRaw : BlockField :=
  mkField (strOf "iconAlt") (strOf "Icon Alt Text") textCompS stringS false (some 120)
    (some (strOf "Alt text for the icon (leave blank if purely decorative)."))

def itemDescriptionFieldRaw : BlockField :=
  mkField (strOf "description") (strOf "Item Description") textCompS stringS false (some 500)
    (some (strOf "Descriptive text for each item"))

def itemRichContentFieldRaw : BlockField :=
  mkField (strOf "richContent") (strOf "Item List Content") richtextS stringS false (some 1000)
    (some (strOf "List or rich content associated with each item"))

def itemCtaFieldRaw : BlockField :=
  mkField (strOf "cta") (strOf "CTA URL") textCompS stringS false none
    (some (strOf "URL for the item call-to-action button"))

def itemCtaTextFieldRaw : BlockField :=
  mkField (strOf "ctaText") (strOf "CTA Button Text") textCompS stringS false (some 50)
    (some (strOf "Display text for the CTA button"))

def containerHeadingFieldNode : BlockField :=
  mkField (strOf "heading") (strOf "Container Heading") textCompS stringS true (some 200)
    (some (strOf "Main heading displayed above the items"))

def containerTextFieldNode : BlockField :=
  mkField (strOf "text") (strOf "Container Text") textCompS stringS false (some 500)
    (some (strOf "Descriptive text displayed with the container heading"))

def containerRichTextFieldNode : BlockField :=
  mkField (strOf "richText") (strOf "Container Rich Text") richtextS stringS false (some 1000)
    (some (strOf "Rich text content with formatting, lists, or multiple paragraphs"))

def itemHeadingFieldNode : BlockField :=
  mkField (strOf "heading") (strOf "Heading") textCompS stringS true (some 200)
    (some (strOf "Heading text for this item"))

def richContentFieldNode : BlockField :=
  mkField (strOf "richContent") (strOf "Rich Content") richtextS stringS false (some 1000)
    (some (strOf "Rich text content including lists, paragraphs, and structured text"))

def simpleContentFieldNode : BlockField :=
  mkField (strOf "simpleContent") (strOf "Simple Content") textCompS stringS false (some 500)
    (some (strOf "Text content for this item"))

/-- Container-level image/alt field pairs (`analyzeContainerFields`). -/
def containerImageFields : Nat → List FigmaNode → List BlockField
  | _, [] => []
  | i, _ :: rest =>
    let base := if i = 0 then strOf "image" else strOf "image" ++ natStr i
    mkField base (strOf "Container Image " ++ natStr (i + 1)) referenceS stringS false none
        (some (strOf "Image asset extracted from Figma design")) ::
      mkField (base ++ strOf "Alt")
        (strOf "Container Image " ++ natStr (i + 1) ++ strOf " Alt Text") textCompS stringS
        false (some 150)
        (some (strOf "Alternative text for accessibility. Leave blank if decorative.")) ::
      containerImageFields (i + 1) rest

/-- Item-level image/alt field pairs (`analyzeActualContent`). -/
def itemImageFields : Nat → List FigmaNode → List BlockField
  | _, [] => []
  | i, _ :: rest =>
    let base := if i = 0 then strOf "image" else strOf "image" ++ natStr i
    mkField base (strOf "Image " ++ natStr (i + 1)) referenceS stringS false none
        (some (strOf "Image asset for this item")) ::
      mkField (base ++ strOf "Alt") (strOf "Image " ++ natStr (i + 1) ++ strOf " Alt Text")
        textCompS stringS false (some 150)
        (some (strOf "Alternative text for accessibility. Leave blank if decorative.")) ::
      itemImageFields (i + 1) rest

/-- Container CTA field pairs (`primaryCta`/`secondaryCta`, …). -/
def containerCtaFields : Nat → List CTAButton → List BlockField
  | _, [] => []
  | i, _ :: rest =>
    let sfx := if i = 0 then strOf "primary" else strOf "secondary"
    let sfxCap := if i = 0 then strOf "Primary" else strOf "Secondary"
    mkField (sfx ++ strOf "Cta") (sfxCap ++ strOf " CTA") textCompS stringS false none
        (some (strOf "URL for the container " ++ sfx ++ strOf " call-to-action")) ::
      mkField (sfx ++ strOf "CtaText") (sfxCap ++ strOf " CTA Text") textCompS stringS false
        (some 50) (some (strOf "Display text for the container " ++ sfx ++ strOf " CTA")) ::
      containerCtaFields (i + 1) rest

/-- Item CTA field pairs (`analyzeActualContent`). -/
def itemCtaFields : Nat → List CTAButton → List BlockField
  | _, [] => []
  | i, _ :: rest =>
    let sfx := if i = 0 then strOf "primary" else strOf "secondary"
    let sfxCap := if i = 0 then strOf "Primary" else strOf "Secondary"
    mkField (sfx ++ strOf "Cta") (sfxCap ++ strOf " CTA") textCompS stringS false none
        (some (strOf "URL for the item " ++ sfx ++ strOf " call-to-action")) ::
      mkField (sfx ++ strOf "CtaText") (sfxCap ++ strOf " CTA Text") textCompS stringS false
        (some 50) (some (strOf "Display text for the item " ++ sfx ++ strOf " CTA")) ::
      itemCtaFields (i + 1) rest

/-- `analyzeContainerFields`. -/
def analyzeContainerFields (textNodes imageNodes buttonNodes : List FigmaNode)
    (a : BlockAnalysis) : List BlockField :=
  let isListBased := isCodeBasedListComponent a.codeSignals
  let mainHeading := findMainHeading textNodes
  let headingPart := match mainHeading with
    | some _ => [containerHeadingFieldNode]
    | none => []
  let imgPart := containerImageFields 0 imageNodes
  let tc := findContainerTextContent textNodes mainHeading
  let textPart :=
    if tc.hasSimpleText then [containerTextFieldNode]
    else if tc.hasRichText then [containerRichTextFieldNode]
    else []
  let containerCTAs := if !isListBased then findContainerCTAs buttonNodes a else []
  headingPart ++ imgPart ++ textPart ++ containerCtaFields 0 containerCTAs

/-- Single-block `extractAllFields`: text fields. -/
def extractAllTextFields : Nat → List FigmaNode → List BlockField
  | _, [] => []
  | i, n :: rest =>
    let isHeading := match n.fontSize with
      | some f => decide (f ≠ 0) && decide (24 < f)
      | none => false
    let idxSfx := if i = 0 then ([] : Str) else natStr i
    mkField ((if isHeading then strOf "heading" else strOf "text") ++ idxSfx)
        ((if isHeading then strOf "Heading " else strOf "Text ") ++ natStr (i + 1))
        (if isHeading then textCompS else richtextS) stringS true none none ::
      extractAllTextFields (i + 1) rest

/-- Single-block `extractAllFields`: image/alt fields. -/
def extractAllImageFields : Nat → List FigmaNode → List BlockField
  | _, [] => []
  | i, _ :: rest =>
    let base := strOf "image" ++ (if i = 0 then ([] : Str) else natStr i)
    mkField base (strOf "Image " ++ natStr (i + 1)) referenceS stringS false none none ::
      mkField (base ++ strOf "Alt") (strOf "Image " ++ natStr (i + 1) ++ strOf " Alt Text")
        textCompS stringS false (some 150)
        (some (strOf "Alternative text for accessibility. Leave blank if decorative.")) ::
      extractAllImageFields (i + 1) rest

def extractAllFields (textNodes imageNodes _buttonNodes : List FigmaNode) : List BlockField :=
  extractAllTextFields 0 textNodes ++ extractAllImageFields 0 imageNodes

/-- `analyzeActualContent` (the `{ fields }` wrapper is dropped). -/
def analyzeActualContent (node : FigmaNode) (a : Option BlockAnalysis)
    (imageNodesOverride : Option (List FigmaNode)) : List BlockField :=
  let textNodes := findAllTextNodes node
  let imageNodes := imageNodesOverride.getD (findAllImageNodes node)
  let headings := findRepeatingHeadings textNodes
  let headingPart := if headings ≠ [] then [itemHeadingFieldNode] else []
  let imgPart := itemImageFields 0 imageNodes
  let tcs := findStructuredTextContent textNodes
  let textPart :=
    if tcs.hasList || tcs.hasMultipleParagraphs then [richContentFieldNode]
    else if tcs.hasSimpleText then [simpleContentFieldNode]
    else []
  let itemCTAs := findItemCTAs node a
  headingPart ++ imgPart ++ textPart ++ itemCtaFields 0 itemCTAs

def analyzeItemStructure (node : FigmaNode) (a : Option BlockAnalysis)
    (itemImageNodes : Option (List FigmaNode)) : List BlockField :=
  analyzeActualContent node a itemImageNodes

/-- The container fields of the rawCode-driven multi-item branch. -/
def rawContainerFields (ex : RawMultiItem) : List BlockField :=
  (if ex.containerHeading.isSome then [containerHeadingFieldRaw] else []) ++
  (if ex.containerIconPresent then [containerIconFieldRaw, containerIconAltFieldRaw] else [])

/-- The item fields of the rawCode-driven multi-item branch. -/
def rawItemFields (ex : RawMultiItem) : List BlockField :=
  (if ex.itemHeadings ≠ [] then [itemHeadingFieldRaw] else []) ++
  (if ex.itemIconsPresent then [itemIconFieldRaw, itemIconAltFieldRaw] else []) ++
  (if ex.itemDescriptions ≠ [] then [itemDescriptionFieldRaw] else []) ++
  (if ex.itemLists.any (fun l => 0 < l.length) then [itemRichContentFieldRaw] else []) ++
  (if ex.hasItemCTAs then [itemCtaFieldRaw, itemCtaTextFieldRaw] else [])

/-- The jsPattern selection of the rawCode-driven branch
(carousel > cards > decorated > cards). -/
def rawJsPattern (blockNameLower : Str) (itf : List BlockField) : Str :=
  let isCarouselBlock := containsSub (strOf "carousel") blockNameLower ||
    containsSub (strOf "slider") blockNameLower ||
    containsSub (strOf "gallery") blockNameLower
  let isCardBlock := containsSub (strOf "card") blockNameLower
  let hasRichtext := itf.any (fun f => f.component == richtextS)
  if isCarouselBlock then carouselS
  else if isCardBlock then cardsS
  else if hasRichtext then decoratedS
  else cardsS

/-- The jsPattern selection of the node-structure branch (no carousel
rule). -/
def nodeJsPattern (blockNameLower : Str) (itf : List BlockField) : Str :=
  let isCardBlock := containsSub (strOf "card") blockNameLower
  let hasRichtext := itf.any (fun f => f.component == richtextS)
  if isCardBlock then cardsS else if hasRichtext then decoratedS else cardsS

/-- The item-level images of the Option-B partitioning (set-insertion
order over the item-container subtrees). -/
def itemImagePartition (node : FigmaNode) (allImageNodes : List FigmaNode) :
    List FigmaNode :=
  dedupKeepFirst ((findItemContainerNodes node).flatMap (fun c =>
    (allNodes c).filter (fun im => allImageNodes.contains im)))

/-- The item fields of the node-structure multi-item branch. -/
def nodeItemFields (node : FigmaNode) (a : BlockAnalysis) : List BlockField :=
  analyzeItemStructure node (some a)
    (some (itemImagePartition node (findAllImageNodes node)))

/-- The container fields of the node-structure multi-item branch. -/
def nodeContainerFields (node : FigmaNode) (a : BlockAnalysis) : List BlockField :=
  let allImageNodes := findAllImageNodes node
  let itemImageNodes := itemImagePartition node allImageNodes
  analyzeContainerFields (findAllTextNodes node)
    (allImageNodes.filter (fun m => !(itemImageNodes.contains m)))
    (findAllButtonNodes node) a

/-- `analyzeContentStructure` (mutating in the source; written as a
transformation of the analysis value; `configurationOptions` omitted). -/
def analyzeContentStructure (node : FigmaNode) (a : BlockAnalysis)
    (rawCode : Option Str) : BlockAnalysis :=
  if a.blockType = multiItemS ∧ (match rawCode with
      | some s => decide (40 < s.length)
      | none => false) = true then
    -- primary rawCode-driven multi-item extraction
    let ex := parseRawCodeForMultiItemStructure (rawCode.getD [])
    { a with containerFields := rawContainerFields ex,
             itemFields := some (rawItemFields ex),
             jsPattern := rawJsPattern (lowerStr (sanitizeBlockName node.name))
               (rawItemFields ex) }
  else if a.blockType = multiItemS then
    -- node-structure analysis with Option-B image partitioning
    { a with containerFields := nodeContainerFields node a,
             itemFields := some (nodeItemFields node a),
             jsPattern := nodeJsPattern (lowerStr a.blockName) (nodeItemFields node a) }
  else
    { a with containerFields := (extractAllFields (findAllTextNodes node)
        (findAllImageNodes node) (findAllButtonNodes node)) }

/-- The preprocessing step of `analyze`: simplify only when the raw code
is longer than 100 characters. -/
def processedOf (rawCode : Option Str) : Option Str :=
  rawCode.map (fun s => if 100 < s.length then simplify s else s)

/-- `DesignAnalyzer.analyze` (the members the claims observe). -/
def analyze (node : FigmaNode) (rawCode : Option Str) : BlockAnalysis :=
  let processed := processedOf rawCode
  let signals := parseCodeSignals processed
  let blockType := if signals.multiItemLikely then multiItemS else singleS
  let base : BlockAnalysis :=
    { blockType := blockType,
      blockName := sanitizeBlockName node.name,
      containerFields := [],
      itemFields := some [],
      jsPattern := cardsS,
      codeSignals := some signals }
  analyzeContentStructure node base processed

/-! ## Analyzer enhancements (`analyzer-enhancements.ts`) -/

structure ConfidenceScore where
  overall : Int
  blockType : Int
  fieldExtraction : Int
  reasons : List Str
  suggestions : List Str
deriving DecidableEq

def clampScore (x : Int) : Int := max 0 (min 100 x)

/-- `AnalyzerEnhancements.calculateConfidenceScore`. -/
def calculateConfidenceScore (a : BlockAnalysis) : ConfidenceScore :=
  let sig := a.codeSignals
  let btDelta : Int :=
    match sig with
    | some s =>
      (if s.multiItemLikely then 30 else 0) +
      (if s.repeatedContainerNames ≠ [] then 20 else 0)
    | none => -20
  let btReasons : List Str :=
    match sig with
    | some s =>
      (if s.multiItemLikely then [strOf "Multi-item indicators found in code structure"] else []) ++
      (if s.repeatedContainerNames ≠ [] then [strOf "Repeated container patterns detected"] else [])
    | none => []
  let btSuggestions : List Str :=
    match sig with
    | some _ => []
    | none => [strOf "Provide generated code for better analysis"]
  let hasContainerFields := a.containerFields ≠ []
  let hasItemFields : Bool :=
    match a.itemFields with
    | some l => decide (l ≠ [])
    | none => false
  let feDelta1 : Int :=
    if hasContainerFields then 20
    else if a.blockType = multiItemS then -30
    else 0
  let feStrings1 : List Str × List Str :=
    if hasContainerFields then
      ([strOf "Extracted " ++ natStr a.containerFields.length ++ strOf " container fields"], [])
    else if a.blockType = multiItemS then
      ([], [strOf "No container fields found - may need manual review"])
    else ([], [])
  let feDelta2 : Int :=
    if hasItemFields then 30
    else if a.blockType = multiItemS then -40
    else 0
  let feStrings2 : List Str × List Str :=
    if hasItemFields then
      ([strOf "Extracted " ++ natStr ((a.itemFields.map List.length).getD 0) ++
          strOf " item fields"], [])
    else if a.blockType = multiItemS then
      ([], [strOf "No item fields found - block may need manual field definition"])
    else ([], [])
  let hasCTAs : Bool :=
    match sig with
    | some s => decide (s.semanticCtas ≠ [])
    | none => false
  let feDelta3 : Int := if hasCTAs then 10 else 0
  let feReasons3 : List Str :=
    if hasCTAs then [strOf "Successfully detected CTA buttons from code"] else []
  let blockTypeScore := clampScore (50 + btDelta)
  let fieldExtractionScore := clampScore (50 + feDelta1 + feDelta2 + feDelta3)
  { overall := jsRound (QJ.divQ (QJ.ofInt (blockTypeScore + fieldExtractionScore)) (QJ.ofInt 2)),
    blockType := blockTypeScore,
    fieldExtraction := fieldExtractionScore,
    reasons := btReasons ++ feStrings1.1 ++ feStrings2.1 ++ feReasons3,
    suggestions := btSuggestions ++ feStrings1.2 ++ feStrings2.2 }

/-! ### Similarity matcher -/

structure CorpusField where
  name : Str
  label : Option Str
  component : Option Str
  valueType : Option Str
  required : Option Bool
  maxLength : Option Nat
  description : Option Str
deriving DecidableEq

structure CorpusModelDef where
  fields : List CorpusField
deriving DecidableEq

structure CorpusModel where
  filters : List Str
  models : List CorpusModelDef
deriving DecidableEq

structure SimilarBlockPattern where
  blockName : Str
  similarity : Int
  sharedCharacteristics : List Str
  suggestedFields : List BlockField
deriving DecidableEq, Inhabited

/-- One row of the Levenshtein DP matrix given the previous row; when the
characters agree the diagonal value is taken without increment, otherwise
`min3 + 1`, exactly as in the source. -/
def levRowAux (c2 : Char) : Str → List Nat → Nat → List Nat
  | [], _, _ => []
  | c1 :: cs, pPrev :: pRest, left =>
    let up := match pRest with
      | u :: _ => u
      | [] => 0
    let v := if c2 = c1 then pPrev else min (min pPrev left) up + 1
    v :: levRowAux c2 cs pRest v
  | _ :: _, [], _ => []

/-- `levenshteinDistance` (row-by-row rendering of the matrix loop). -/
def levenshteinDistance (str1 str2 : Str) : Nat :=
  let firstRow := List.range (str1.length + 1)
  let lastRow := str2.foldl (fun acc c2 =>
    let i := acc.2 + 1
    (i :: levRowAux c2 str1 acc.1 i, i)) (firstRow, 0)
  (lastRow.1.getLast?).getD 0

/-- `stringSimilarity`: `(longer.length - editDistance) / longer.length`. -/
def stringSimilarity (str1 str2 : Str) : QJ :=
  let longer := if str2.length < str1.length then str1 else str2
  let shorter := if str2.length < str1.length then str2 else str1
  if longer.length = 0 then QJ.ofInt 1
  else
    QJ.divQ (QJ.ofInt ((longer.length : Int) - (levenshteinDistance longer shorter : Int)))
      (QJ.ofInt (longer.length : Int))

/-- `calculateSimilarity`: name similarity (30) plus up to three
35-point structural bonuses, scaled by `100 / maxScore` with
`maxScore = 30 + 70` and rounded. -/
def calculateSimilarity (blockName existingBlockName : Str) (characteristics : List Str)
    (existingModel : CorpusModel) : Int :=
  let maxScore : Int := 30 + 70
  let nameScore := QJ.mul (stringSimilarity blockName existingBlockName) (QJ.ofInt 30)
  let isCarousel := characteristics.any (fun c =>
    containsSub (strOf "carousel") c || containsSub (strOf "slider") c)
  let hasCarouselInName := containsSub (strOf "carousel") existingBlockName ||
    containsSub (strOf "slider") existingBlockName
  let isCards := characteristics.any (fun c =>
    containsSub (strOf "card") c || containsSub (strOf "grid") c)
  let hasCardsInName := containsSub (strOf "card") existingBlockName
  let hasItems := existingModel.filters ≠ []
  let needsItems := characteristics.any (fun c =>
    containsSub (strOf "multi-item") c || containsSub (strOf "repeating") c)
  let bonus : Int :=
    (if isCarousel ∧ hasCarouselInName then 35 else 0) +
    (if isCards ∧ hasCardsInName then 35 else 0) +
    (if hasItems ∧ needsItems then 35 else 0)
  let score := QJ.add nameScore (QJ.ofInt bonus)
  jsRound (QJ.mul (QJ.divQ score (QJ.ofInt maxScore)) (QJ.ofInt 100))

/-- `findSharedCharacteristics`. -/
def findSharedCharacteristics (characteristics : List Str)
    (model : CorpusModel) : List Str :=
  (if characteristics.any (fun c => containsSub (strOf "multi-item") c) ∧
      model.filters ≠ [] then
    [strOf "Multi-item structure"]
  else []) ++
  (if characteristics.any (fun c => containsSub (strOf "image") c) ∧
      model.models.any (fun m => m.fields.any (fun f => f.component = some referenceS)) then
    [strOf "Image fields"]
  else []) ++
  (if characteristics.any (fun c =>
        containsSub (strOf "cta") c || containsSub (strOf "button") c) ∧
      model.models.any (fun m => m.fields.any (fun f =>
        containsSub (strOf "cta") (lowerStr f.name))) then
    [strOf "CTA buttons"]
  else [])

/-- JS `x || d` on an optional string (empty string is falsy). -/
def jsOrStr (v : Option Str) (d : Str) : Str :=
  match v with
  | some x => if x = [] then d else x
  | none => d

/-- `extractFieldsFromModel` (field-wise defaulting). -/
def extractFieldsFromModel (model : CorpusModel) : List BlockField :=
  model.models.flatMap (fun d =>
    d.fields.map (fun f =>
      { name := f.name,
        label := jsOrStr f.label f.name,
        component := jsOrStr f.component textCompS,
        valueType := jsOrStr f.valueType stringS,
        required := f.required.getD false,
        maxLength := f.maxLength,
        description := f.description }))

/-- Stable descending insertion of one pattern (ties keep earlier
elements first, matching JS's stable `sort`). -/
def insertDescSim (x : SimilarBlockPattern) :
    List SimilarBlockPattern → List SimilarBlockPattern
  | [] => [x]
  | y :: ys => if y.similarity < x.similarity then x :: y :: ys else y :: insertDescSim x ys

def sortBySimilarityDesc (l : List SimilarBlockPattern) : List SimilarBlockPattern :=
  l.foldl (fun acc x => insertDescSim x acc) []

/-- `findSimilarBlockPatterns`.  The blocks directory is modelled as a
list of (entry name, optional model document); entries without a model
are skipped, exactly as missing `_NAME.json` files are. -/
def findSimilarBlockPatterns (blockName : Str) (characteristics : List Str)
    (corpus : List (Str × Option CorpusModel)) : List SimilarBlockPattern :=
  let patterns := corpus.filterMap (fun e =>
    match e.2 with
    | none => none
    | some m =>
      let similarity := calculateSimilarity blockName e.1 characteristics m
      if 40 < similarity then
        some { blockName := e.1,
               similarity := similarity,
               sharedCharacteristics := findSharedCharacteristics characteristics m,
               suggestedFields := extractFieldsFromModel m }
      else none)
  sortBySimilarityDesc patterns

/-- `extractCharacteristics`. -/
def extractCharacteristics (a : BlockAnalysis) (rawCode : Str) : List Str :=
  let lowerCode := lowerStr rawCode
  [a.blockType] ++
  (if containsSub carouselS a.blockName then
    [strOf "carousel", strOf "slider", strOf "navigation"] else []) ++
  (if containsSub (strOf "card") a.blockName then
    [strOf "cards", strOf "grid", strOf "multi-item"] else []) ++
  (if containsSub (strOf "offer") a.blockName then
    [strOf "product", strOf "pricing", strOf "cta"] else []) ++
  (if containsSub (strOf "chevron") lowerCode || containsSub (strOf "arrow") lowerCode then
    [strOf "navigation", strOf "carousel"] else []) ++
  (if containsSub (strOf "indicator") lowerCode || containsSub (strOf "dot") lowerCode then
    [strOf "pagination", strOf "carousel"] else []) ++
  (if containsSub (strOf "button") lowerCode || containsSub (strOf "cta") lowerCode then
    [strOf "cta", strOf "interactive"] else []) ++
  (if containsSub (strOf "img") lowerCode || containsSub (strOf "picture") lowerCode then
    [strOf "images", strOf "media"] else [])

/-- The suggestion appended when borrowing from a similar block. -/
def borrowMsg (best : SimilarBlockPattern) : Str :=
  strOf "Consider using field structure from similar block: " ++ best.blockName ++
  strOf " (" ++ intStr best.similarity ++ strOf "% match)"

/-- The suggested-field filter `(!container && !heading) || item` of
`enhanceAnalysis` (JS `&&` binds tighter than `||`). -/
def borrowFieldFilter (f : BlockField) : Bool :=
  (!containsSub (strOf "container") f.name && !containsSub (strOf "heading") f.name) ||
    containsSub (strOf "item") f.name

/-- The similar patterns fetched by `enhanceAnalysis` (only when
`overall < 70` and a blocks directory exists). -/
def enhanceSimilarPatterns (a : BlockAnalysis) (rawCode : Str)
    (blocksDir : Option (List (Str × Option CorpusModel))) : List SimilarBlockPattern :=
  if (calculateConfidenceScore a).overall < 70 then
    match blocksDir with
    | some corpus =>
      findSimilarBlockPatterns a.blockName (extractCharacteristics a rawCode) corpus
    | none => []
  else []

/-- `AnalyzerEnhancements.enhanceAnalysis`, as a transformation returning
the (possibly updated) analysis, the confidence and the similar
patterns.  `blocksDir = none` models an absent/non-existing directory. -/
def enhanceAnalysis (a : BlockAnalysis) (rawCode : Str)
    (blocksDir : Option (List (Str × Option CorpusModel))) :
    BlockAnalysis × ConfidenceScore × List SimilarBlockPattern :=
  let confidence := calculateConfidenceScore a
  let similarPatterns := enhanceSimilarPatterns a rawCode blocksDir
  if confidence.fieldExtraction < 50 ∧ similarPatterns ≠ [] then
    let best := similarPatterns.headI
    let a2 :=
      if a.blockType = multiItemS ∧ a.itemFields = none then
        { a with itemFields := some (best.suggestedFields.filter borrowFieldFilter) }
      else a
    let confidence2 :=
      { confidence with suggestions := confidence.suggestions ++ [borrowMsg best] }
    (a2, confidence2, similarPatterns)
  else (a, confidence, similarPatterns)

/-! ## Claim-level predicates and concrete inputs -/

/-- Every `reference` field has a sibling `NAMEAlt` text field in the
same scope. -/
def pairedRefs (l : List BlockField) : Prop :=
  ∀ f ∈ l, f.component = referenceS →
    ∃ g ∈ l, g.name = f.name ++ strOf "Alt" ∧ g.component = textCompS

instance decPairedRefs (l : List BlockField) : Decidable (pairedRefs l) :=
  inferInstanceAs (Decidable (∀ f ∈ l, f.component = referenceS →
    ∃ g ∈ l, g.name = f.name ++ strOf "Alt" ∧ g.component = textCompS))

/-- Whether `analyzeContentStructure` takes the rawCode-driven multi-item
path (given that the analysis is multi-item). -/
def rawPathTaken (rawCode : Option Str) : Bool :=
  match processedOf rawCode with
  | some s => decide (40 < s.length)
  | none => false

def nameImpliesCarousel (bl : Str) : Bool :=
  containsSub (strOf "carousel") bl || containsSub (strOf "slider") bl ||
    containsSub (strOf "gallery") bl

def nameImpliesCard (bl : Str) : Bool := containsSub (strOf "card") bl

/-- A childless node of the given name and type. -/
def leafNode (nm tp : String) : FigmaNode :=
  FigmaNode.mk (strOf nm) (strOf tp) none none none [] none false FNodes.nil

/-- 40-character markup with two `data-name="card"` containers: long
enough for signal extraction (≥ 40) but not for the rawCode field-derivation
path (> 40), so a multi-item analysis takes the node-structure path. -/
def cexCardMarkup : Str := strOf "data-name=\"card\"data-name=\"card\"zzzzzzzz"

/-- A carousel-named node used to exhibit the node path's missing
carousel rule. -/
def cexCarouselNode : FigmaNode := leafNode "My Carousel" "FRAME"

/-- A plain node for the short-input scenario. -/
def cexHeroNode : FigmaNode := leafNode "Hero Banner" "FRAME"

/-- Markup below the 40-character extraction threshold. -/
def cexShortMarkup : Str := strOf "0123456789"

/-- Markup with a link whose destination is the single character `/`. -/
def cexSlashLinkMarkup : Str := strOf "<a href=\"/\">Home</a>zzzzzzzzzzzzzzzzzzzz"

/-- Markup with a two-character destination (an admitted link). -/
def cexLinkMarkup : Str := strOf "<a href=\"/x\">Home</a>zzzzzzzzzzzzzzzzzzz"

/-- The non-idempotence input for the simplifier. -/
def cexSimplifyInput : Str := strOf "<div></div>a<div></div>"

/-- A rectangle with an image fill. -/
def cexImageRect : FigmaNode :=
  FigmaNode.mk (strOf "Pic") (strOf "RECTANGLE") none none none [strOf "IMAGE"] none false
    FNodes.nil

/-- A single-block node containing one image. -/
def cexTeaserNode : FigmaNode :=
  FigmaNode.mk (strOf "Teaser") (strOf "FRAME") none none none [] none false
    (FNodes.ofList [cexImageRect])

/-- A corpus model with a non-empty `filters` array and one field. -/
def cexCorpusModel : CorpusModel :=
  { filters := [strOf "item"],
    models := [⟨[⟨strOf "body", none, none, none, none, none, none⟩]⟩] }

/-- Characteristics carrying carousel, card and multi-item signals at once. -/
def cexTripleChars : List Str := [strOf "carousel", strOf "card", strOf "multi-item"]

/-- A multi-item analysis with an empty — but present — item-field list. -/
def cexLowConfAnalysis : BlockAnalysis :=
  { blockType := multiItemS, blockName := strOf "card-thing", containerFields := [],
    itemFields := some [], jsPattern := cardsS, codeSignals := none }

def cexCorpus : List (Str × Option CorpusModel) := [(strOf "card-list", some cexCorpusModel)]

/-- The pattern `findSimilarBlockPatterns` produces for `cexLowConfAnalysis`
against `cexCorpus` (name similarity 0.6·30 = 18, cards 35, multi-item 35,
rounded 88). -/
def cexBestMatch : SimilarBlockPattern :=
  { blockName := strOf "card-list", similarity := 88,
    sharedCharacteristics := [strOf "Multi-item structure"],
    suggestedFields := [⟨strOf "body", strOf "body", textCompS, stringS, false, none, none⟩] }

/-! # Theorems -/

/-- C2: the claim bounds `findSimilar` results by 100 (as does the
`similarity: number; // 0-100` documentation on `SimilarBlockPattern`),
but `calculateSimilarity` adds three independent 35-point bonuses to the
30-point name similarity while dividing by `maxScore = 100`, so a corpus
entry named `carousel-card` with a non-empty `filters` array queried with
carousel+card+multi-item characteristics scores 135: the returned list
violates the claimed (and documented) upper bound, while the `> 40`
filter is applied.  This evaluates the code at the failing input. -/
theorem C2_similarity_exceeds_100 :
    calculateSimilarity (strOf "carousel-card") (strOf "carousel-card")
      cexTripleChars cexCorpusModel = 135 ∧
    ((findSimilarBlockPatterns (strOf "carousel-card") cexTripleChars
      [(strOf "carousel-card", some cexCorpusModel)]).map (fun p => p.similarity)) = [135] ∧
    (100 : Int) < 135 := by
  refine ⟨by decide, by decide, by decide⟩

/-- C7: `normalize` (= `HTMLSimplifier.simplify`) is not idempotent: on
`<div></div>a<div></div>` the first run appends a newline after each
`</div>`; the second run re-appends another one before the text `a`
(the `>\s+<` collapse does not fire there), so
`simplify (simplify x) ≠ simplify x`.  This evaluates the code at the
failing input. -/
theorem C7_simplify_not_idempotent :
    simplify cexSimplifyInput = strOf "<div></div>\na<div></div>\n" ∧
    simplify (simplify cexSimplifyInput) = strOf "<div></div>\n\na<div></div>\n" ∧
    simplify (simplify cexSimplifyInput) ≠ simplify cexSimplifyInput := by
  refine ⟨by decide, by decide, by decide⟩

/-- C6 counterexample: on markup of 10 characters the extractor does
return the zero bag and the classification defaults to single, but the
blockType sub-score is NOT reduced by 20: `analyze` always attaches the
(zero-valued) signal bag to `debug.codeSignals`, so the scorer's
no-signal branch (−20 plus its suggestion) never fires and the sub-score
stays at the 50 baseline with an empty suggestion list. -/
theorem C6_counterexample :
    parseCodeSignals (processedOf (some cexShortMarkup)) = zeroSignals ∧
    (analyze cexHeroNode (some cexShortMarkup)).blockType = singleS ∧
    (calculateConfidenceScore (analyze cexHeroNode (some cexShortMarkup))).blockType = 50 ∧
    (calculateConfidenceScore (analyze cexHeroNode (some cexShortMarkup))).blockType ≠ 30 ∧
    (calculateConfidenceScore (analyze cexHeroNode (some cexShortMarkup))).suggestions = [] := by
  refine ⟨by decide, by decide, by decide, by decide, by decide⟩

/-- C6 (amended): for every markup input below the 40-character minimum
length, the signal extractor returns its zero-valued bag with
`multiItemLikely = false` and classification defaults to single-item;
`analyze` attaches that zero bag to the analysis, so the subsequent
confidence score's blockType sub-score stays at the 50 baseline (the −20
reduction and its suggestion apply only to analyses carrying no signal
bag at all) and the suggestion list is empty; no error is raised (the
extractor and analyzer are total functions). -/
theorem C6_short_input_zero_bag (node : FigmaNode) (s : Str) (h : s.length < 40) :
    parseCodeSignals (some s) = zeroSignals ∧
    (analyze node (some s)).blockType = singleS ∧
    (analyze node (some s)).codeSignals = some zeroSignals ∧
    (calculateConfidenceScore (analyze node (some s))).blockType = 50 ∧
    (calculateConfidenceScore (analyze node (some s))).suggestions = [] := by
  have hz : parseCodeSignals (some s) = zeroSignals := by
    simp [parseCodeSignals, h]
  have h100 : ¬ (100 < s.length) := by omega
  have hp : processedOf (some s) = some s := by
    simp [processedOf, h100]
  have ha : analyze node (some s) =
      analyzeContentStructure node
        { blockType := singleS, blockName := sanitizeBlockName node.name,
          containerFields := [], itemFields := some [], jsPattern := cardsS,
          codeSignals := some zeroSignals } (some s) := by
    simp [analyze, hp, hz, zeroSignals, singleS]
  have hbt : singleS ≠ multiItemS := by decide
  have hres : analyze node (some s) =
      { blockType := singleS, blockName := sanitizeBlockName node.name,
        containerFields := extractAllFields (findAllTextNodes node)
          (findAllImageNodes node) (findAllButtonNodes node),
        itemFields := some [], jsPattern := cardsS,
        codeSignals := some zeroSignals } := by
    rw [ha]
    simp [analyzeContentStructure, hbt]
  refine ⟨hz, by rw [hres], by rw [hres], ?_, ?_⟩
  · rw [hres]
    simp [calculateConfidenceScore, zeroSignals, clampScore]
  · rw [hres]
    by_cases hcf : extractAllFields (findAllTextNodes node)
        (findAllImageNodes node) (findAllButtonNodes node) = [] <;>
      simp [calculateConfidenceScore, zeroSignals, hcf, hbt]

/-- C6 witness: the amended statement applied to the concrete 10-character
markup. -/
theorem C6_short_input_zero_bag_witness :
    parseCodeSignals (some cexShortMarkup) = zeroSignals ∧
    (analyze cexHeroNode (some cexShortMarkup)).blockType = singleS ∧
    (analyze cexHeroNode (some cexShortMarkup)).codeSignals = some zeroSignals ∧
    (calculateConfidenceScore (analyze cexHeroNode (some cexShortMarkup))).blockType = 50 ∧
    (calculateConfidenceScore (analyze cexHeroNode (some cexShortMarkup))).suggestions = [] :=
  C6_short_input_zero_bag cexHeroNode cexShortMarkup (by decide)

/-- C4 counterexample: a multi-item analysis derived through the
node-structure path (processed markup of exactly 40 characters triggers
multi-item classification but not the `> 40` rawCode field-derivation
path) for a node named `My Carousel`: the block name implies carousel,
yet `jsPattern` is `cards` — the node-structure path has no carousel
rule, so the claimed fixed priority fails there. -/
theorem C4_node_path_no_carousel :
    (analyze cexCarouselNode (some cexCardMarkup)).blockType = multiItemS ∧
    rawPathTaken (some cexCardMarkup) = false ∧
    nameImpliesCarousel (analyze cexCarouselNode (some cexCardMarkup)).blockName = true ∧
    (analyze cexCarouselNode (some cexCardMarkup)).jsPattern = cardsS ∧
    cardsS ≠ carouselS := by
  refine ⟨by decide, by decide, by decide, by decide, by decide⟩

/-- C4 (amended): for every multi-item analysis, `jsPattern` is chosen as
follows.  On the raw-code path (processed markup longer than 40
characters) the fixed priority of the claim holds: `carousel` if the
sanitized block name implies carousel/slider/gallery, else `cards` if it
implies card, else `decorated` if some item field has component
`richtext`, else `cards`.  On the node-structure path the carousel rule
is absent: `cards` if the name implies card, else `decorated` if some
item field is richtext, else `cards`. -/
theorem C4_jspattern_two_paths (node : FigmaNode) (rawCode : Option Str)
    (h : (analyze node rawCode).blockType = multiItemS) :
    (analyze node rawCode).jsPattern =
      (let bl := lowerStr (sanitizeBlockName node.name)
       let hasRt := ((analyze node rawCode).itemFields.getD []).any
         (fun f => f.component == richtextS)
       if rawPathTaken rawCode then
         if nameImpliesCarousel bl then carouselS
         else if nameImpliesCard bl then cardsS
         else if hasRt then decoratedS
         else cardsS
       else
         if nameImpliesCard bl then cardsS
         else if hasRt then decoratedS
         else cardsS) := by
  by_cases hm : (parseCodeSignals (processedOf rawCode)).multiItemLikely = true
  · cases hpr : processedOf rawCode with
    | none =>
      rw [hpr] at hm
      simp only [analyze, hpr, hm]
      simp [analyzeContentStructure, rawPathTaken, hpr, nodeJsPattern,
        nameImpliesCard]
    | some s =>
      rw [hpr] at hm
      by_cases hlen : 40 < s.length
      · simp only [analyze, hpr, hm]
        simp [analyzeContentStructure, rawPathTaken, hpr, hlen, rawJsPattern,
          nameImpliesCarousel, nameImpliesCard]
      · simp only [analyze, hpr, hm]
        simp [analyzeContentStructure, rawPathTaken, hpr, hlen, nodeJsPattern,
          nameImpliesCard]
  · exfalso
    have hb : (analyze node rawCode).blockType = singleS := by
      simp only [Bool.not_eq_true] at hm
      cases hpr : processedOf rawCode with
      | none =>
        rw [hpr] at hm
        simp [analyze, hpr, hm, analyzeContentStructure,
          show singleS ≠ multiItemS from by decide]
      | some s =>
        rw [hpr] at hm
        simp [analyze, hpr, hm, analyzeContentStructure,
          show singleS ≠ multiItemS from by decide]
    rw [hb] at h
    exact absurd h (by decide)

/-- C4 witness: the amended statement applied at the concrete
node-structure-path input. -/
theorem C4_jspattern_two_paths_witness :
    (analyze cexCarouselNode (some cexCardMarkup)).blockType = multiItemS ∧
    (analyze cexCarouselNode (some cexCardMarkup)).jsPattern = cardsS :=
  ⟨by decide,
    (C4_jspattern_two_paths cexCarouselNode (some cexCardMarkup) (by decide)).trans (by decide)⟩

set_option maxHeartbeats 1600000 in
/-- C5 counterexample: an analysis meeting every hypothesis of the claim
(overall 15 < 70, fieldExtraction 0 < 50, one surviving similar pattern
with a non-empty borrowable field list, multi-item, and an empty derived
item-field list) for which the enhancement step does NOT populate the
item-field list: the populate branch tests JS falsiness of `itemFields`,
and the deriver's empty array `[]` is truthy, so only the suggestion is
appended and the item-field list stays empty. -/
theorem C5_empty_itemfields_not_populated :
    (calculateConfidenceScore cexLowConfAnalysis).overall < 70 ∧
    (calculateConfidenceScore cexLowConfAnalysis).fieldExtraction < 50 ∧
    cexLowConfAnalysis.blockType = multiItemS ∧
    cexLowConfAnalysis.itemFields = some [] ∧
    (enhanceAnalysis cexLowConfAnalysis [] (some cexCorpus)).2.2 = [cexBestMatch] ∧
    cexBestMatch.suggestedFields.filter borrowFieldFilter ≠ [] ∧
    (enhanceAnalysis cexLowConfAnalysis [] (some cexCorpus)).1.itemFields = some [] ∧
    borrowMsg cexBestMatch ∈
      (enhanceAnalysis cexLowConfAnalysis [] (some cexCorpus)).2.1.suggestions := by
  refine ⟨by decide, by decide, by decide, by decide, by decide, by decide, by decide, by decide⟩

/-- C5 (amended): whenever a similar pattern survives (which already
requires overall < 70) and the fieldExtraction sub-score is below 50, the
enhancement step appends the suggestion naming the borrowed source
block, but it populates the item-field list from the top match's
suggested fields (excluding container-only and heading-duplicate fields,
unless the name mentions `item`) only when the analysis is multi-item
and its item-field list is absent (undefined); a present item-field
list — even the deriver's empty one — is left unchanged. -/
theorem C5_borrow_only_when_absent (a : BlockAnalysis) (rawCode : Str)
    (blocksDir : Option (List (Str × Option CorpusModel)))
    (best : SimilarBlockPattern) (rest : List SimilarBlockPattern)
    (hp : enhanceSimilarPatterns a rawCode blocksDir = best :: rest)
    (hf : (calculateConfidenceScore a).fieldExtraction < 50) :
    (∀ l, a.itemFields = some l →
      (enhanceAnalysis a rawCode blocksDir).1.itemFields = some l) ∧
    (a.blockType = multiItemS → a.itemFields = none →
      (enhanceAnalysis a rawCode blocksDir).1.itemFields =
        some (best.suggestedFields.filter borrowFieldFilter)) ∧
    (enhanceAnalysis a rawCode blocksDir).2.1.suggestions =
      (calculateConfidenceScore a).suggestions ++ [borrowMsg best] ∧
    (enhanceAnalysis a rawCode blocksDir).2.2 = best :: rest := by
  refine ⟨?_, ?_, ?_, ?_⟩
  · intro l hl
    simp [enhanceAnalysis, hp, hf, hl]
  · intro hbt hnone
    simp [enhanceAnalysis, hp, hf, hbt, hnone]
  · simp [enhanceAnalysis, hp, hf]
  · simp only [enhanceAnalysis, hp]
    split_ifs <;> rfl

/-- C5 witness: the amended statement applied at the concrete
low-confidence analysis and one-entry corpus. -/
theorem C5_borrow_only_when_absent_witness :
    (enhanceAnalysis cexLowConfAnalysis [] (some cexCorpus)).1.itemFields = some [] ∧
    (enhanceAnalysis cexLowConfAnalysis [] (some cexCorpus)).2.1.suggestions =
      (calculateConfidenceScore cexLowConfAnalysis).suggestions ++ [borrowMsg cexBestMatch] := by
  have h := C5_borrow_only_when_absent cexLowConfAnalysis [] (some cexCorpus) cexBestMatch []
    (by decide) (by decide)
  exact ⟨h.1 [] (by decide), h.2.2.1⟩

/-- Clamping bounds. -/
theorem clampScore_nonneg (x : Int) : 0 ≤ clampScore x :=
  le_max_left 0 _

theorem clampScore_le_100 (x : Int) : clampScore x ≤ 100 :=
  max_le (by norm_num) (min_le_left 100 x)

/-- C1: both sub-scores start at 50; the blockType sub-score gets +30 for
a multi-item-likely signal bag, +20 for non-empty repeated-container
names, and −20 when no signal bag is attached; the fieldExtraction
sub-score gets +20 for non-empty container fields (else −30 when
multi-item), +30 for non-empty item fields (else −40 when multi-item),
and +10 when at least one semantic CTA was detected; both sub-scores are
clamped to [0, 100]; overall is the JS-rounded average of the two; and
every adjustment appends exactly one reason or suggestion string, so the
combined number of reasons and suggestions equals the number of applied
adjustments. -/
theorem C1_confidence_score_spec (a : BlockAnalysis) :
    (calculateConfidenceScore a).blockType =
      clampScore (50 + (match a.codeSignals with
        | some s => (if s.multiItemLikely then 30 else 0) +
            (if s.repeatedContainerNames ≠ [] then 20 else 0)
        | none => -20)) ∧
    (calculateConfidenceScore a).fieldExtraction =
      clampScore (50 +
        (if a.containerFields ≠ [] then 20
         else if a.blockType = multiItemS then -30 else 0) +
        (if a.itemFields.getD [] ≠ [] then 30
         else if a.blockType = multiItemS then -40 else 0) +
        (if (a.codeSignals.map CodeSignals.semanticCtas).getD [] ≠ [] then 10 else 0)) ∧
    0 ≤ (calculateConfidenceScore a).blockType ∧
    (calculateConfidenceScore a).blockType ≤ 100 ∧
    0 ≤ (calculateConfidenceScore a).fieldExtraction ∧
    (calculateConfidenceScore a).fieldExtraction ≤ 100 ∧
    (calculateConfidenceScore a).overall =
      jsRound (QJ.divQ (QJ.ofInt ((calculateConfidenceScore a).blockType +
        (calculateConfidenceScore a).fieldExtraction)) (QJ.ofInt 2)) ∧
    (calculateConfidenceScore a).reasons.length +
        (calculateConfidenceScore a).suggestions.length =
      (match a.codeSignals with
        | some s => (if s.multiItemLikely then 1 else 0) +
            (if s.repeatedContainerNames ≠ [] then 1 else 0)
        | none => 1) +
      (if a.containerFields ≠ [] then 1 else if a.blockType = multiItemS then 1 else 0) +
      (if a.itemFields.getD [] ≠ [] then 1 else if a.blockType = multiItemS then 1 else 0) +
      (if (a.codeSignals.map CodeSignals.semanticCtas).getD [] ≠ [] then 1 else 0) := by
  obtain ⟨bt, bn, cf, itf, jsp, cs⟩ := a
  cases cs with
  | none =>
    cases itf with
    | none =>
      refine ⟨rfl, ?_, clampScore_nonneg _, clampScore_le_100 _,
        clampScore_nonneg _, clampScore_le_100 _, rfl, ?_⟩ <;>
        simp [calculateConfidenceScore] <;> split_ifs <;> simp_all
    | some l =>
      refine ⟨rfl, ?_, clampScore_nonneg _, clampScore_le_100 _,
        clampScore_nonneg _, clampScore_le_100 _, rfl, ?_⟩ <;>
        simp [calculateConfidenceScore] <;> split_ifs <;> simp_all
  | some s =>
    cases itf with
    | none =>
      refine ⟨rfl, ?_, clampScore_nonneg _, clampScore_le_100 _,
        clampScore_nonneg _, clampScore_le_100 _, rfl, ?_⟩ <;>
        simp [calculateConfidenceScore] <;> split_ifs <;> simp_all
    | some l =>
      refine ⟨rfl, ?_, clampScore_nonneg _, clampScore_le_100 _,
        clampScore_nonneg _, clampScore_le_100 _, rfl, ?_⟩ <;>
        simp [calculateConfidenceScore] <;> split_ifs <;> simp_all

/-- Each successful match of a compiled matcher that always consumes at
least `L` characters bounds the number of collected matches by
`length / L`. -/
theorem collectScan_length_le {α : Type} (f : Str → Option (α × Nat)) (L : Nat)
    (hL : 1 ≤ L)
    (hf : ∀ s a k, f s = some (a, k) → L ≤ k ∧ L ≤ s.length) :
    ∀ (fuel : Nat) (s : Str), L * (collectScan f fuel s).length ≤ s.length := by
  intro fuel
  induction fuel with
  | zero => intro s; simp [collectScan]
  | succ n ih =>
    intro s
    match s with
    | [] => simp [collectScan]
    | c :: cs =>
      cases hfc : f (c :: cs) with
      | none =>
        simp only [collectScan, hfc]
        exact le_trans (ih cs) (by simp)
      | some p =>
        obtain ⟨a, k⟩ := p
        obtain ⟨hk, hs⟩ := hf _ _ _ hfc
        simp only [collectScan, hfc, List.length_cons]
        have h2 := ih (List.drop (max k 1) (c :: cs))
        rw [List.length_drop] at h2
        have hmax : max k 1 = k := by omega
        rw [hmax] at h2
        simp only [List.length_cons] at hs h2
        calc L * ((collectScan f n (List.drop (max k 1) (c :: cs))).length + 1)
            = L * (collectScan f n (List.drop (max k 1) (c :: cs))).length + L :=
              Nat.mul_succ _ _
          _ ≤ (cs.length + 1 - k) + L := by rw [hmax]; exact Nat.add_le_add_right h2 L
          _ ≤ cs.length + 1 := by omega

/-- A `data-name=["']w["']` match consumes `12 + w.length` characters:
the literal `data-name=` (10), two quotes, and the alternative `w`. -/
theorem tryQuotedDataName_min_len (alts : List Str) (m : Nat)
    (halts : ∀ w ∈ alts, m ≤ w.length) (s : Str) (u : Unit) (k : Nat)
    (h : tryQuotedDataName alts s = some (u, k)) :
    12 + m ≤ k ∧ 12 + m ≤ s.length := by
  unfold tryQuotedDataName toScan at h
  rw [Option.map_eq_some'] at h
  obtain ⟨⟨u2, rest⟩, hg, hpair⟩ := h
  simp only [Prod.mk.injEq] at hpair
  obtain ⟨hu, hk⟩ := hpair
  beta_reduce at hg
  split at hg
  case isTrue h1 =>
    cases hdrop : s.drop 10 with
    | nil => rw [hdrop] at hg; simp at hg
    | cons q r =>
      rw [hdrop] at hg
      simp only [] at hg
      split at hg
      case isTrue hq =>
        obtain ⟨w, hw, hfw⟩ := List.exists_of_findSome?_eq_some hg
        have hm := halts w hw
        split at hfw
        case isTrue hpre =>
          cases hdrop2 : r.drop w.length with
          | nil => rw [hdrop2] at hfw; simp at hfw
          | cons q2 rest2 =>
            rw [hdrop2] at hfw
            simp only [] at hfw
            split at hfw
            case isTrue hq2 =>
              rw [Option.some.injEq, Prod.mk.injEq] at hfw
              obtain ⟨-, hrest⟩ := hfw
              subst hrest
              have e1 : (List.drop 10 s).length = (q :: r).length := by rw [hdrop]
              have e2 : (List.drop w.length r).length = (q2 :: rest2).length := by
                rw [hdrop2]
              rw [List.length_drop, List.length_cons] at e1 e2
              have e3 : w.length ≤ r.length := (List.isPrefixOf_iff_prefix.mp hpre).length_le
              omega
            case isFalse hq2 => simp at hfw
        case isFalse hpre => simp at hfw
      case isFalse hq => simp at hg
  case isFalse h1 => simp at hg

/-- Every `data-name=["']container["']` occurrence takes 21 characters. -/
theorem countGeneric_bound (code : Str) : 21 * countGeneric code ≤ code.length := by
  have hf : ∀ s (a : Unit) k, tryQuotedDataName [strOf "container"] s = some (a, k) →
      21 ≤ k ∧ 21 ≤ s.length := by
    intro s a k h
    have hm : ∀ w ∈ [strOf "container"], 9 ≤ w.length := by
      intro w hw
      simp only [List.mem_singleton] at hw
      subst hw
      decide
    have := tryQuotedDataName_min_len [strOf "container"] 9 hm s a k h
    omega
  simpa [countGeneric, runCollect] using
    collectScan_length_le (tryQuotedDataName [strOf "container"]) 21 (by omega) hf
      code.length code

/-- Below 40 characters the generic-container heuristic cannot fire: two
generic containers alone need 42 characters. -/
theorem genericSignal_short (code : Str) (h : code.length < 40) :
    genericContainerMultiItemSignal code = false := by
  have hb := countGeneric_bound code
  have h2 : ¬ 2 ≤ countGeneric code := by
    intro h2
    have h42 : (42 : Nat) ≤ 21 * countGeneric code := by
      calc (42 : Nat) = 21 * 2 := by norm_num
        _ ≤ 21 * countGeneric code := Nat.mul_le_mul_left 21 h2
    omega
  simp [genericContainerMultiItemSignal, h2]

/-- `analyzeContentStructure` only rewrites the field lists and the js
pattern: block type and attached signal bag pass through unchanged. -/
theorem analyzeContentStructure_preserves (node : FigmaNode) (a : BlockAnalysis)
    (rc : Option Str) :
    (analyzeContentStructure node a rc).blockType = a.blockType ∧
    (analyzeContentStructure node a rc).codeSignals = a.codeSignals := by
  unfold analyzeContentStructure
  split_ifs <;> exact ⟨rfl, rfl⟩

/-- C3: the analysis stores the extracted signal bag and classifies the
block as multi-item exactly when the bag's multiItemLikely flag is set,
otherwise as single; and for every input (including short ones) the flag
is set exactly when some repeated container name occurred at least twice,
or at least two distinct headings were collected, or at least two
item-like containers were seen, or the generic-container heuristic fires
(at least two generic containers together with at least two small
headings or at least four bullet markers). -/
theorem C3_classification (node : FigmaNode) (rawCode : Option Str) :
    (analyze node rawCode).codeSignals = some (parseCodeSignals (processedOf rawCode)) ∧
    (analyze node rawCode).blockType =
      (if (parseCodeSignals (processedOf rawCode)).multiItemLikely then multiItemS
       else singleS) ∧
    ((parseCodeSignals (processedOf rawCode)).multiItemLikely = true ↔
      ((∃ p ∈ (parseCodeSignals (processedOf rawCode)).repeatedContainerNames, 2 ≤ p.2) ∨
       2 ≤ (parseCodeSignals (processedOf rawCode)).distinctHeadings.length ∨
       2 ≤ (parseCodeSignals (processedOf rawCode)).itemLikeContainerCount ∨
       genericContainerMultiItemSignal (lowerStr ((processedOf rawCode).getD [])) = true)) := by
  refine ⟨?_, ?_, ?_⟩
  · simp only [analyze]
    rw [(analyzeContentStructure_preserves _ _ _).2]
  · simp only [analyze]
    rw [(analyzeContentStructure_preserves _ _ _).1]
  · cases hp : processedOf rawCode with
    | none => decide
    | some raw =>
      by_cases hl : raw.length < 40
      · have hz : parseCodeSignals (some raw) = zeroSignals := by
          simp [parseCodeSignals, hl]
        have hg : genericContainerMultiItemSignal (lowerStr raw) = false := by
          refine genericSignal_short _ ?_
          simpa [lowerStr] using hl
        rw [hz]
        simp [zeroSignals, hg]
      · simp only [parseCodeSignals, if_neg hl]
        simp [List.any_eq_true]
        rw [or_assoc, or_assoc]

/-- Every character of a run-collapsed string is either the replacement
or a character of the input that the run predicate rejects. -/
theorem mem_collapseRunsAux (p : Char → Bool) (repl : Char) :
    ∀ (b : Bool) (s : Str) (c : Char), c ∈ collapseRunsAux p repl b s →
      c = repl ∨ (c ∈ s ∧ p c = false) := by
  intro b s
  induction s generalizing b with
  | nil => intro c hc; simp [collapseRunsAux] at hc
  | cons d r ih =>
    intro c hc
    by_cases hd : p d = true
    · cases b with
      | false =>
        simp only [collapseRunsAux, hd, if_true] at hc
        rcases List.mem_cons.mp hc with h | h
        · exact Or.inl h
        · rcases ih true c h with h2 | ⟨h3, h4⟩
          · exact Or.inl h2
          · exact Or.inr ⟨List.mem_cons_of_mem d h3, h4⟩
      | true =>
        simp only [collapseRunsAux, hd, if_true] at hc
        rcases ih true c hc with h2 | ⟨h3, h4⟩
        · exact Or.inl h2
        · exact Or.inr ⟨List.mem_cons_of_mem d h3, h4⟩
    · simp only [collapseRunsAux, hd, if_false, Bool.false_eq_true] at hc
      rcases List.mem_cons.mp hc with h | h
      · subst h
        exact Or.inr ⟨List.mem_cons_self c r, by simpa using hd⟩
      · rcases ih false c h with h2 | ⟨h3, h4⟩
        · exact Or.inl h2
        · exact Or.inr ⟨List.mem_cons_of_mem d h3, h4⟩

/-- While inside a run, the collapser emits nothing until the first
character rejected by the predicate, so the head of its output is never
a run character. -/
theorem collapseRunsAux_true_head (p : Char → Bool) (repl : Char) :
    ∀ (s : Str) (x : Char), (collapseRunsAux p repl true s).head? = some x →
      p x = false := by
  intro s
  induction s with
  | nil => intro x hx; simp [collapseRunsAux] at hx
  | cons d r ih =>
    intro x hx
    by_cases hd : p d = true
    · simp only [collapseRunsAux, hd, if_true] at hx
      exact ih x hx
    · simp only [collapseRunsAux, hd, if_false, Bool.false_eq_true, List.head?_cons,
        Option.some.injEq] at hx
      subst hx
      simpa using hd

/-- The hyphen-run collapser never emits two adjacent hyphens. -/
theorem collapseHyphens_chain (s : Str) :
    ∀ (b : Bool), List.Chain' (fun c1 c2 => c1 = '-' → c2 ≠ '-')
      (collapseRunsAux (fun c => c = '-') '-' b s) := by
  induction s with
  | nil => intro b; simp [collapseRunsAux]
  | cons d r ih =>
    intro b
    by_cases hd : d = '-'
    · subst hd
      cases b with
      | false =>
        have e1 : collapseRunsAux (fun c => c = '-') '-' false ('-' :: r) =
            '-' :: collapseRunsAux (fun c => c = '-') '-' true r := by
          simp [collapseRunsAux]
        rw [e1]
        refine List.chain'_cons'.mpr ⟨?_, ih true⟩
        intro y hy _
        have h5 := collapseRunsAux_true_head (fun c => c = '-') '-' r y (Option.mem_def.mp hy)
        simpa using h5
      | true =>
        have e2 : collapseRunsAux (fun c => c = '-') '-' true ('-' :: r) =
            collapseRunsAux (fun c => c = '-') '-' true r := by
          simp [collapseRunsAux]
        rw [e2]
        exact ih true
    · have hd2 : (fun c => decide (c = '-')) d = false := by simpa using hd
      cases b with
      | false =>
        simp only [collapseRunsAux, hd2, if_false, Bool.false_eq_true]
        exact List.chain'_cons'.mpr ⟨fun y _ hdd => absurd hdd hd, ih false⟩
      | true =>
        simp only [collapseRunsAux, hd2, if_false, Bool.false_eq_true]
        exact List.chain'_cons'.mpr ⟨fun y _ hdd => absurd hdd hd, ih false⟩

/-- Dropping a trailing hyphen from a string with no adjacent hyphens and
a non-hyphen head yields a subset with no adjacent hyphens, a non-hyphen
head and a non-hyphen last character. -/
theorem stripTrailHyphen_spec (a : Str)
    (hchain : List.Chain' (fun c1 c2 => c1 = '-' → c2 ≠ '-') a)
    (hhead : a.head? ≠ some '-') :
    stripTrailHyphen a ⊆ a ∧
    List.Chain' (fun c1 c2 => c1 = '-' → c2 ≠ '-') (stripTrailHyphen a) ∧
    (stripTrailHyphen a).head? ≠ some '-' ∧
    (stripTrailHyphen a).getLast? ≠ some '-' := by
  cases hl : a.getLast? with
  | none =>
    have ha : a = [] := by
      cases hs : a with
      | nil => rfl
      | cons x xs => rw [hs] at hl; simp [List.getLast?_concat] at hl
    have e : stripTrailHyphen a = a := by unfold stripTrailHyphen; rw [hl]
    rw [e, ha]
    simp
  | some c =>
    have e : stripTrailHyphen a = if c = '-' then a.dropLast else a := by
      unfold stripTrailHyphen; rw [hl]
    by_cases hc : c = '-'
    · subst hc
      rw [e, if_pos rfl]
      have hne : a ≠ [] := by
        intro h; rw [h] at hl; simp at hl
      have hglast : a.getLast hne = '-' := by
        have h6 := List.getLast?_eq_getLast a hne
        rw [hl] at h6
        exact (Option.some.injEq _ _ ▸ h6.symm)
      have hsplit : a.dropLast ++ ['-'] = a := by
        rw [← hglast]
        exact List.dropLast_append_getLast hne
      refine ⟨List.dropLast_subset _, ?_, ?_, ?_⟩
      · rw [← hsplit] at hchain
        exact (List.chain'_append.mp hchain).1
      · cases hd : a.dropLast with
        | nil => simp
        | cons x xs =>
          have hax : a.head? = some x := by
            rw [← hsplit, hd]
            simp
          simp only [List.head?_cons, ne_eq, Option.some.injEq]
          intro hx
          rw [hx] at hax
          exact hhead hax
      · rw [← hsplit] at hchain
        have h3 := (List.chain'_append.mp hchain).2.2
        intro hcon
        exact h3 '-' (Option.mem_def.mpr hcon) '-' (by simp) rfl rfl
    · rw [e, if_neg hc]
      refine ⟨List.Subset.refl _, hchain, hhead, ?_⟩
      rw [hl]
      simp [hc]

/-- Stripping boundary hyphens of a string with no adjacent hyphens. -/
theorem stripEndHyphens_spec (s : Str)
    (h2 : List.Chain' (fun c1 c2 => c1 = '-' → c2 ≠ '-') s) :
    stripEndHyphens s ⊆ s ∧
    List.Chain' (fun c1 c2 => c1 = '-' → c2 ≠ '-') (stripEndHyphens s) ∧
    (stripEndHyphens s).head? ≠ some '-' ∧
    (stripEndHyphens s).getLast? ≠ some '-' := by
  have ha : stripLeadHyphen s ⊆ s ∧
      List.Chain' (fun c1 c2 => c1 = '-' → c2 ≠ '-') (stripLeadHyphen s) ∧
      (stripLeadHyphen s).head? ≠ some '-' := by
    cases s with
    | nil => simp [stripLeadHyphen]
    | cons c r =>
      by_cases hc : c = '-'
      · subst hc
        simp only [stripLeadHyphen, if_true]
        refine ⟨List.subset_cons_self _ _, (List.chain'_cons'.mp h2).2, ?_⟩
        intro hh
        exact (List.chain'_cons'.mp h2).1 '-' (Option.mem_def.mpr hh) rfl rfl
      · simp only [stripLeadHyphen, hc, if_false]
        exact ⟨List.Subset.refl _, h2, by simp [hc]⟩
  obtain ⟨hsub, hchain, hhead⟩ := ha
  obtain ⟨h1, h3, h4, h5⟩ := stripTrailHyphen_spec (stripLeadHyphen s) hchain hhead
  exact ⟨fun x hx => hsub (h1 hx), h3, h4, h5⟩

/-- The sanitized block name's alphabet and hyphen invariants. -/
theorem sanitizeBlockName_invariants (name : Str) :
    (sanitizeBlockName name).all
        (fun c => ('a' ≤ c && c ≤ 'z') || ('0' ≤ c && c ≤ '9') || c = '-') = true ∧
    List.Chain' (fun c1 c2 => c1 = '-' → c2 ≠ '-') (sanitizeBlockName name) ∧
    (sanitizeBlockName name).head? ≠ some '-' ∧
    (sanitizeBlockName name).getLast? ≠ some '-' := by
  have hchain := collapseHyphens_chain
    (collapseRunsAux isJsWs '-' false ((name.map toLowerJs).filter keepBlockNameChar)) false
  obtain ⟨hsub, hchain2, hhead, hlast⟩ := stripEndHyphens_spec _ hchain
  refine ⟨?_, hchain2, hhead, hlast⟩
  rw [List.all_eq_true]
  intro c hc
  have h1 := hsub hc
  rcases mem_collapseRunsAux _ _ _ _ _ h1 with h2 | ⟨h3, h4⟩
  · subst h2; simp
  · rcases mem_collapseRunsAux _ _ _ _ _ h3 with h5 | ⟨h6, h7⟩
    · subst h5; simp
    · have h8 := (List.mem_filter.mp h6).2
      unfold keepBlockNameChar at h8
      simp only [Bool.or_eq_true] at h8 ⊢
      rcases h8 with ((h9 | h9) | h9) | h9
      · exact Or.inl (Or.inl h9)
      · exact Or.inl (Or.inr h9)
      · rw [h9] at h7; cases h7
      · exact Or.inr h9

/-- `analyzeContentStructure` passes the block name through unchanged. -/
theorem analyzeContentStructure_blockName (node : FigmaNode) (a : BlockAnalysis)
    (rc : Option Str) :
    (analyzeContentStructure node a rc).blockName = a.blockName := by
  unfold analyzeContentStructure
  split_ifs <;> rfl

/-- C10: the analysis's blockName is the sanitized node name, and for
every node name (any string) the sanitized name contains only lowercase
ASCII letters, digits and hyphens, never contains two consecutive
hyphens, and neither starts nor ends with a hyphen. -/
theorem C10_blockname_sanitized (node : FigmaNode) (rawCode : Option Str) :
    (analyze node rawCode).blockName = sanitizeBlockName node.name ∧
    (sanitizeBlockName node.name).all
        (fun c => ('a' ≤ c && c ≤ 'z') || ('0' ≤ c && c ≤ '9') || c = '-') = true ∧
    List.Chain' (fun c1 c2 => c1 = '-' → c2 ≠ '-') (sanitizeBlockName node.name) ∧
    (sanitizeBlockName node.name).head? ≠ some '-' ∧
    (sanitizeBlockName node.name).getLast? ≠ some '-' := by
  refine ⟨?_, sanitizeBlockName_invariants node.name⟩
  simp only [analyze]
  rw [analyzeContentStructure_blockName]

/-- Component tags used by the pairing proofs. -/
theorem textComp_ne_ref : textCompS ≠ referenceS := by decide

theorem richComp_ne_ref : richtextS ≠ referenceS := by decide

/-- The empty field list is trivially paired. -/
theorem pairedRefs_nil : pairedRefs [] :=
  fun f hf => absurd hf (List.not_mem_nil f)

/-- Pairing is preserved by concatenation: each reference keeps its
partner in its own half. -/
theorem pairedRefs_append (l1 l2 : List BlockField)
    (h1 : pairedRefs l1) (h2 : pairedRefs l2) : pairedRefs (l1 ++ l2) := by
  intro f hf href
  rcases List.mem_append.mp hf with h | h
  · obtain ⟨g, hg, hgn, hgc⟩ := h1 f h href
    exact ⟨g, List.mem_append_left _ hg, hgn, hgc⟩
  · obtain ⟨g, hg, hgn, hgc⟩ := h2 f h href
    exact ⟨g, List.mem_append_right _ hg, hgn, hgc⟩

/-- A list without reference fields is vacuously paired. -/
theorem pairedRefs_of_no_ref (l : List BlockField)
    (h : ∀ f ∈ l, f.component ≠ referenceS) : pairedRefs l :=
  fun f hf href => absurd href (h f hf)

/-- Container image fields come in image/imageAlt pairs. -/
theorem containerImageFields_paired : ∀ (ns : List FigmaNode) (i : Nat),
    pairedRefs (containerImageFields i ns) := by
  intro ns
  induction ns with
  | nil => intro i f hf href; simp [containerImageFields] at hf
  | cons n rest ih =>
    intro i f hf href
    simp only [containerImageFields] at hf
    rcases List.mem_cons.mp hf with h | hf2
    · subst h
      exact ⟨_, List.mem_cons_of_mem _ (List.mem_cons_self _ _), rfl, rfl⟩
    · rcases List.mem_cons.mp hf2 with h | hf3
      · subst h
        exact absurd href textComp_ne_ref
      · obtain ⟨g, hg, hn, hc⟩ := ih (i + 1) f hf3 href
        exact ⟨g, List.mem_cons_of_mem _ (List.mem_cons_of_mem _ hg), hn, hc⟩

/-- Item image fields come in image/imageAlt pairs. -/
theorem itemImageFields_paired : ∀ (ns : List FigmaNode) (i : Nat),
    pairedRefs (itemImageFields i ns) := by
  intro ns
  induction ns with
  | nil => intro i f hf href; simp [itemImageFields] at hf
  | cons n rest ih =>
    intro i f hf href
    simp only [itemImageFields] at hf
    rcases List.mem_cons.mp hf with h | hf2
    · subst h
      exact ⟨_, List.mem_cons_of_mem _ (List.mem_cons_self _ _), rfl, rfl⟩
    · rcases List.mem_cons.mp hf2 with h | hf3
      · subst h
        exact absurd href textComp_ne_ref
      · obtain ⟨g, hg, hn, hc⟩ := ih (i + 1) f hf3 href
        exact ⟨g, List.mem_cons_of_mem _ (List.mem_cons_of_mem _ hg), hn, hc⟩

/-- Single-block image fields come in image/imageAlt pairs. -/
theorem extractAllImageFields_paired : ∀ (ns : List FigmaNode) (i : Nat),
    pairedRefs (extractAllImageFields i ns) := by
  intro ns
  induction ns with
  | nil => intro i f hf href; simp [extractAllImageFields] at hf
  | cons n rest ih =>
    intro i f hf href
    simp only [extractAllImageFields] at hf
    rcases List.mem_cons.mp hf with h | hf2
    · subst h
      exact ⟨_, List.mem_cons_of_mem _ (List.mem_cons_self _ _), rfl, rfl⟩
    · rcases List.mem_cons.mp hf2 with h | hf3
      · subst h
        exact absurd href textComp_ne_ref
      · obtain ⟨g, hg, hn, hc⟩ := ih (i + 1) f hf3 href
        exact ⟨g, List.mem_cons_of_mem _ (List.mem_cons_of_mem _ hg), hn, hc⟩

/-- Container CTA fields are all text components. -/
theorem containerCtaFields_no_ref : ∀ (l : List CTAButton) (i : Nat),
    ∀ f ∈ containerCtaFields i l, f.component ≠ referenceS := by
  intro l
  induction l with
  | nil => intro i f hf; simp [containerCtaFields] at hf
  | cons c rest ih =>
    intro i f hf
    simp only [containerCtaFields] at hf
    rcases List.mem_cons.mp hf with h | hf2
    · subst h; exact textComp_ne_ref
    · rcases List.mem_cons.mp hf2 with h | hf3
      · subst h; exact textComp_ne_ref
      · exact ih (i + 1) f hf3

/-- Item CTA fields are all text components. -/
theorem itemCtaFields_no_ref : ∀ (l : List CTAButton) (i : Nat),
    ∀ f ∈ itemCtaFields i l, f.component ≠ referenceS := by
  intro l
  induction l with
  | nil => intro i f hf; simp [itemCtaFields] at hf
  | cons c rest ih =>
    intro i f hf
    simp only [itemCtaFields] at hf
    rcases List.mem_cons.mp hf with h | hf2
    · subst h; exact textComp_ne_ref
    · rcases List.mem_cons.mp hf2 with h | hf3
      · subst h; exact textComp_ne_ref
      · exact ih (i + 1) f hf3

/-- Single-block text fields are text or richtext components. -/
theorem extractAllTextFields_no_ref : ∀ (ns : List FigmaNode) (i : Nat),
    ∀ f ∈ extractAllTextFields i ns, f.component ≠ referenceS := by
  have key : ∀ (b : Bool) (nm lb : Str),
      (mkField nm lb (if b = true then textCompS else richtextS) stringS
        true none none).component ≠ referenceS := by
    intro b nm lb
    cases b
    · exact richComp_ne_ref
    · exact textComp_ne_ref
  intro ns
  induction ns with
  | nil => intro i f hf; simp [extractAllTextFields] at hf
  | cons n rest ih =>
    intro i f hf
    simp only [extractAllTextFields] at hf
    rcases List.mem_cons.mp hf with h | hf2
    · subst h
      exact key _ _ _
    · exact ih (i + 1) f hf2

/-- The optional container heading field is a text component. -/
theorem headingPartCF_no_ref (o : Option FigmaNode) :
    ∀ f ∈ ((match o with
      | some _ => [containerHeadingFieldNode]
      | none => []) : List BlockField), f.component ≠ referenceS := by
  cases o with
  | none => intro f hf; simp at hf
  | some n =>
    intro f hf
    rcases List.mem_cons.mp hf with h | h
    · subst h; exact textComp_ne_ref
    · simp at h

/-- `analyzeContainerFields` output is reference/Alt paired. -/
theorem analyzeContainerFields_paired (tn im bn : List FigmaNode) (a : BlockAnalysis) :
    pairedRefs (analyzeContainerFields tn im bn a) := by
  unfold analyzeContainerFields
  refine pairedRefs_append _ _ (pairedRefs_append _ _ (pairedRefs_append _ _ ?_ ?_) ?_) ?_
  · exact pairedRefs_of_no_ref _ (headingPartCF_no_ref (findMainHeading tn))
  · exact containerImageFields_paired im 0
  · refine pairedRefs_of_no_ref _ ?_
    split_ifs <;> intro f hf
    · rcases List.mem_cons.mp hf with h | h
      · subst h; exact textComp_ne_ref
      · simp at h
    · rcases List.mem_cons.mp hf with h | h
      · subst h; exact richComp_ne_ref
      · simp at h
    · simp at hf
  · exact pairedRefs_of_no_ref _ (containerCtaFields_no_ref _ 0)

/-- `analyzeActualContent` output is reference/Alt paired. -/
theorem analyzeActualContent_paired (node : FigmaNode) (a : Option BlockAnalysis)
    (ov : Option (List FigmaNode)) :
    pairedRefs (analyzeActualContent node a ov) := by
  unfold analyzeActualContent
  refine pairedRefs_append _ _ (pairedRefs_append _ _ (pairedRefs_append _ _ ?_ ?_) ?_) ?_
  · refine pairedRefs_of_no_ref _ ?_
    split_ifs <;> intro f hf
    · rcases List.mem_cons.mp hf with h | h
      · subst h; exact textComp_ne_ref
      · simp at h
    · simp at hf
  · exact itemImageFields_paired _ 0
  · refine pairedRefs_of_no_ref _ ?_
    split_ifs <;> intro f hf
    · rcases List.mem_cons.mp hf with h | h
      · subst h; exact richComp_ne_ref
      · simp at h
    · rcases List.mem_cons.mp hf with h | h
      · subst h; exact textComp_ne_ref
      · simp at h
    · simp at hf
  · exact pairedRefs_of_no_ref _ (itemCtaFields_no_ref _ 0)

/-- `extractAllFields` output is reference/Alt paired. -/
theorem extractAllFields_paired (tn im bn : List FigmaNode) :
    pairedRefs (extractAllFields tn im bn) := by
  unfold extractAllFields
  exact pairedRefs_append _ _
    (pairedRefs_of_no_ref _ (extractAllTextFields_no_ref tn 0))
    (extractAllImageFields_paired im 0)

/-- The raw-path container fields are reference/Alt paired. -/
theorem rawContainerFields_paired (ex : RawMultiItem) :
    pairedRefs (rawContainerFields ex) := by
  unfold rawContainerFields
  split_ifs <;> decide

/-- The raw-path item fields are reference/Alt paired. -/
theorem rawItemFields_paired (ex : RawMultiItem) :
    pairedRefs (rawItemFields ex) := by
  unfold rawItemFields
  split_ifs <;> decide

/-- `analyzeContentStructure` preserves the pairing invariant. -/
theorem analyzeContentStructure_paired (node : FigmaNode) (a : BlockAnalysis)
    (rawCode : Option Str)
    (hi : ∀ l, a.itemFields = some l → pairedRefs l) :
    pairedRefs (analyzeContentStructure node a rawCode).containerFields ∧
    (∀ l, (analyzeContentStructure node a rawCode).itemFields = some l →
      pairedRefs l) := by
  unfold analyzeContentStructure
  split_ifs with h1 h2
  · constructor
    · exact rawContainerFields_paired _
    · intro l hl
      have hl2 : some (rawItemFields
          (parseRawCodeForMultiItemStructure (rawCode.getD []))) = some l := hl
      cases hl2
      exact rawItemFields_paired _
  · constructor
    · show pairedRefs (nodeContainerFields node a)
      unfold nodeContainerFields
      exact analyzeContainerFields_paired _ _ _ _
    · intro l hl
      have hl2 : some (nodeItemFields node a) = some l := hl
      cases hl2
      show pairedRefs (nodeItemFields node a)
      unfold nodeItemFields analyzeItemStructure
      exact analyzeActualContent_paired _ _ _
  · constructor
    · exact extractAllFields_paired (findAllTextNodes node) (findAllImageNodes node)
        (findAllButtonNodes node)
    · intro l hl
      exact hi l hl

/-- C9: in every analysis result, every reference (image/icon) field in
the container fields or in the item fields has a sibling text field in
the same scope named by appending `Alt` to the reference field's name. -/
theorem C9_reference_alt_pairing (node : FigmaNode) (rawCode : Option Str) :
    pairedRefs (analyze node rawCode).containerFields ∧
    (∀ l, (analyze node rawCode).itemFields = some l → pairedRefs l) := by
  simp only [analyze]
  refine analyzeContentStructure_paired _ _ _ ?_
  intro l hl
  have hl2 : some ([] : List BlockField) = some l := hl
  cases hl2
  exact pairedRefs_nil

/-- C9 witness: the pairing applied to a concrete teaser node, whose
single-path analysis leaves the empty item-field list in place. -/
theorem C9_reference_alt_pairing_witness :
    (analyze cexTeaserNode none).itemFields = some [] ∧ pairedRefs [] :=
  ⟨by decide, (C9_reference_alt_pairing cexTeaserNode none).2 [] (by decide)⟩

/-- `dedupByKey` never emits an element whose key was already seen. -/
theorem dedupByKey_not_seen {α β : Type} [DecidableEq β] (key : α → β) :
    ∀ (seen : List β) (l : List α) (x : α), x ∈ dedupByKey key seen l →
      key x ∉ seen := by
  intro seen l
  induction l generalizing seen with
  | nil => intro x hx; simp [dedupByKey] at hx
  | cons a as ih =>
    intro x hx
    simp only [dedupByKey] at hx
    split at hx
    case isTrue h => exact ih seen x hx
    case isFalse h =>
      rcases List.mem_cons.mp hx with h1 | h1
      · subst h1; exact h
      · have h3 := ih (key a :: seen) x h1
        intro hc
        exact h3 (List.mem_cons_of_mem _ hc)

/-- `dedupByKey` output has pairwise distinct keys. -/
theorem dedupByKey_pairwise {α β : Type} [DecidableEq β] (key : α → β) :
    ∀ (seen : List β) (l : List α),
      List.Pairwise (fun u v => key u ≠ key v) (dedupByKey key seen l) := by
  intro seen l
  induction l generalizing seen with
  | nil => simp [dedupByKey]
  | cons a as ih =>
    simp only [dedupByKey]
    split
    · exact ih seen
    · refine List.Pairwise.cons ?_ (ih (key a :: seen))
      intro b hb he
      have h3 := dedupByKey_not_seen key (key a :: seen) as b hb
      exact h3 (he ▸ List.mem_cons_self _ _)

/-- `dedupByKey` only keeps elements of its input. -/
theorem dedupByKey_subset {α β : Type} [DecidableEq β] (key : α → β) :
    ∀ (seen : List β) (l : List α), dedupByKey key seen l ⊆ l := by
  intro seen l
  induction l generalizing seen with
  | nil => simp [dedupByKey]
  | cons a as ih =>
    simp only [dedupByKey]
    split
    · exact (ih seen).trans (List.subset_cons_self _ _)
    · intro x hx
      rcases List.mem_cons.mp hx with h | h
      · exact h ▸ List.mem_cons_self _ _
      · exact List.mem_cons_of_mem _ (ih (key a :: seen) h)

/-- A scanned `<a href>` match enters the candidate bag exactly under the
code's admission condition. -/
theorem link_mem_ctaCandidates (code raw : Str) (href t : Str)
    (hm : (href, t) ∈ scanLinks code) :
    ((⟨trimS (stripTagsPlus t), some href, CtaType.link⟩ : Cta) ∈
        ctaCandidates code raw) ↔
      (trimS (stripTagsPlus t) ≠ [] ∧ href ≠ [] ∧ href ≠ ['#'] ∧
        1 < href.length ∧ ¬ (strOf "javascript:").isPrefixOf href ∧
        (trimS (stripTagsPlus t)).length ≤ 100) := by
  constructor
  · intro hmem
    rcases List.mem_append.mp hmem with h12 | hdiv
    · rcases List.mem_append.mp h12 with hbtn | hlnk
      · obtain ⟨inner, hin, heq⟩ := List.mem_filterMap.mp hbtn
        simp only at heq
        split at heq
        case isTrue hcond =>
          rw [Option.some.injEq, Cta.mk.injEq] at heq
          exact absurd heq.2.1 (by simp)
        case isFalse hcond => simp at heq
      · obtain ⟨⟨h1, t1⟩, hm1, heq⟩ := List.mem_filterMap.mp hlnk
        simp only at heq
        split at heq
        case isTrue hcond =>
          rw [Option.some.injEq, Cta.mk.injEq] at heq
          obtain ⟨htext, hhref, -⟩ := heq
          rw [Option.some.injEq] at hhref
          rw [htext, hhref] at hcond
          exact hcond
        case isFalse hcond => simp at heq
    · obtain ⟨inner, hin, heq⟩ := List.mem_filterMap.mp hdiv
      simp only at heq
      cases hdt : divButtonText inner with
      | none => rw [hdt] at heq; simp at heq
      | some t1 =>
        rw [hdt] at heq
        simp only at heq
        split at heq
        case isTrue hcond =>
          rw [Option.some.injEq, Cta.mk.injEq] at heq
          exact absurd heq.2.1 (by simp)
        case isFalse hcond => simp at heq
  · intro hcond
    refine List.mem_append.mpr (Or.inl (List.mem_append.mpr (Or.inr ?_)))
    refine List.mem_filterMap.mpr ⟨(href, t), hm, ?_⟩
    simp only
    rw [if_pos hcond]

/-- A scanned `<button>` match enters the candidate bag exactly when its
stripped trimmed text is non-empty and at most 100 characters. -/
theorem button_mem_ctaCandidates (code raw : Str) (inner : Str)
    (hm : inner ∈ scanButtons code) :
    ((⟨trimS (stripTagsPlus inner), none, CtaType.button⟩ : Cta) ∈
        ctaCandidates code raw) ↔
      (trimS (stripTagsPlus inner) ≠ [] ∧
        (trimS (stripTagsPlus inner)).length ≤ 100) := by
  constructor
  · intro hmem
    rcases List.mem_append.mp hmem with h12 | hdiv
    · rcases List.mem_append.mp h12 with hbtn | hlnk
      · obtain ⟨inner2, hin, heq⟩ := List.mem_filterMap.mp hbtn
        simp only at heq
        split at heq
        case isTrue hcond =>
          rw [Option.some.injEq, Cta.mk.injEq] at heq
          rw [heq.1] at hcond
          exact hcond
        case isFalse hcond => simp at heq
      · obtain ⟨⟨h1, t1⟩, hm1, heq⟩ := List.mem_filterMap.mp hlnk
        simp only at heq
        split at heq
        case isTrue hcond =>
          rw [Option.some.injEq, Cta.mk.injEq] at heq
          exact absurd heq.2.1 (by simp)
        case isFalse hcond => simp at heq
    · obtain ⟨inner2, hin, heq⟩ := List.mem_filterMap.mp hdiv
      simp only at heq
      cases hdt : divButtonText inner2 with
      | none => rw [hdt] at heq; simp at heq
      | some t1 =>
        rw [hdt] at heq
        simp only at heq
        split at heq
        case isTrue hcond =>
          rw [Option.some.injEq, Cta.mk.injEq] at heq
          rw [heq.1] at hcond
          exact hcond
        case isFalse hcond => simp at heq
  · intro hcond
    refine List.mem_append.mpr (Or.inl (List.mem_append.mpr (Or.inl ?_)))
    refine List.mem_filterMap.mpr ⟨inner, hm, ?_⟩
    simp only
    rw [if_pos hcond]

/-- A Figma `Button` component marker enters the candidate bag exactly
when its extracted text, stripped and trimmed, is non-empty and at most
100 characters. -/
theorem divButton_mem_ctaCandidates (code raw : Str) (inner t1 : Str)
    (hm : inner ∈ scanDivButtons raw) (hdt : divButtonText inner = some t1) :
    ((⟨trimS (stripTagsPlus t1), none, CtaType.button⟩ : Cta) ∈
        ctaCandidates code raw) ↔
      (trimS (stripTagsPlus t1) ≠ [] ∧ (trimS (stripTagsPlus t1)).length ≤ 100) := by
  constructor
  · intro hmem
    rcases List.mem_append.mp hmem with h12 | hdiv
    · rcases List.mem_append.mp h12 with hbtn | hlnk
      · obtain ⟨inner2, hin, heq⟩ := List.mem_filterMap.mp hbtn
        simp only at heq
        split at heq
        case isTrue hcond =>
          rw [Option.some.injEq, Cta.mk.injEq] at heq
          rw [heq.1] at hcond
          exact hcond
        case isFalse hcond => simp at heq
      · obtain ⟨⟨h1, u1⟩, hm1, heq⟩ := List.mem_filterMap.mp hlnk
        simp only at heq
        split at heq
        case isTrue hcond =>
          rw [Option.some.injEq, Cta.mk.injEq] at heq
          exact absurd heq.2.1 (by simp)
        case isFalse hcond => simp at heq
    · obtain ⟨inner2, hin, heq⟩ := List.mem_filterMap.mp hdiv
      simp only at heq
      cases hdt2 : divButtonText inner2 with
      | none => rw [hdt2] at heq; simp at heq
      | some t2 =>
        rw [hdt2] at heq
        simp only at heq
        split at heq
        case isTrue hcond =>
          rw [Option.some.injEq, Cta.mk.injEq] at heq
          rw [heq.1] at hcond
          exact hcond
        case isFalse hcond => simp at heq
  · intro hcond
    refine List.mem_append.mpr (Or.inr ?_)
    refine List.mem_filterMap.mpr ⟨inner, hm, ?_⟩
    simp only
    rw [hdt]
    simp only
    rw [if_pos hcond]

/-- C8 counterexample: a 40-character markup containing
`<a href="/">Home</a>` — text non-empty and within 100 characters,
destination non-empty, not `#`, not a `javascript:` pseudo-URL — yields
no semantic CTAs: the code additionally requires `href.length > 1`,
which the single-character destination `/` fails. -/
theorem C8_slash_link_rejected :
    (parseCodeSignals (some cexSlashLinkMarkup)).semanticCtas = [] ∧
    scanLinks (lowerStr cexSlashLinkMarkup) = [(strOf "/", strOf "home")] ∧
    trimS (stripTagsPlus (strOf "home")) = strOf "home" ∧
    strOf "home" ≠ [] ∧ strOf "/" ≠ [] ∧ strOf "/" ≠ ['#'] ∧
    ¬ (strOf "javascript:").isPrefixOf (strOf "/") ∧
    (strOf "home").length ≤ 100 ∧
    cexSlashLinkMarkup.length = 40 := by decide

/-- C8 (amended): above the 40-character threshold the signal bag's CTAs
are the deduplicated candidates; a scanned link is admitted iff its
stripped trimmed text is non-empty and at most 100 characters and its
destination is non-empty, not `#`, LONGER THAN ONE CHARACTER, and not a
`javascript:` pseudo-URL; buttons and Figma Button markers are admitted
iff their text is non-empty and at most 100 characters; and the final
list is pairwise distinct under case-insensitive text comparison. -/
theorem C8_cta_admission (code raw : Str) :
    ((parseCodeSignals (some raw)).semanticCtas =
      (if raw.length < 40 then [] else semanticCtasOf (lowerStr raw) raw)) ∧
    (∀ href t, (href, t) ∈ scanLinks code →
      (((⟨trimS (stripTagsPlus t), some href, CtaType.link⟩ : Cta) ∈
          ctaCandidates code raw) ↔
        (trimS (stripTagsPlus t) ≠ [] ∧ href ≠ [] ∧ href ≠ ['#'] ∧
          1 < href.length ∧ ¬ (strOf "javascript:").isPrefixOf href ∧
          (trimS (stripTagsPlus t)).length ≤ 100))) ∧
    (∀ inner, inner ∈ scanButtons code →
      (((⟨trimS (stripTagsPlus inner), none, CtaType.button⟩ : Cta) ∈
          ctaCandidates code raw) ↔
        (trimS (stripTagsPlus inner) ≠ [] ∧
          (trimS (stripTagsPlus inner)).length ≤ 100))) ∧
    (∀ inner t1, inner ∈ scanDivButtons raw → divButtonText inner = some t1 →
      (((⟨trimS (stripTagsPlus t1), none, CtaType.button⟩ : Cta) ∈
          ctaCandidates code raw) ↔
        (trimS (stripTagsPlus t1) ≠ [] ∧
          (trimS (stripTagsPlus t1)).length ≤ 100))) ∧
    semanticCtasOf code raw ⊆ ctaCandidates code raw ∧
    List.Pairwise (fun c1 c2 => lowerStr c1.text ≠ lowerStr c2.text)
      (semanticCtasOf code raw) := by
  refine ⟨?_, ?_, ?_, ?_, ?_, ?_⟩
  · by_cases hl : raw.length < 40
    · simp [parseCodeSignals, hl, zeroSignals]
    · simp [parseCodeSignals, hl]
  · intro href t hm
    exact link_mem_ctaCandidates code raw href t hm
  · intro inner hm
    exact button_mem_ctaCandidates code raw inner hm
  · intro inner t1 hm hdt
    exact divButton_mem_ctaCandidates code raw inner t1 hm hdt
  · exact dedupByKey_subset _ [] _
  · exact dedupByKey_pairwise (fun c => lowerStr c.text) [] (ctaCandidates code raw)

/-- C8 witness: the amended admission applied to a concrete markup with
a two-character destination. -/
theorem C8_cta_admission_witness :
    ((strOf "/x", strOf "home") ∈ scanLinks (lowerStr cexLinkMarkup)) ∧
    ((⟨strOf "home", some (strOf "/x"), CtaType.link⟩ : Cta) ∈
      ctaCandidates (lowerStr cexLinkMarkup) cexLinkMarkup) :=
  ⟨by decide,
    ((C8_cta_admission (lowerStr cexLinkMarkup) cexLinkMarkup).2.1 (strOf "/x")
      (strOf "home") (by decide)).mpr (by decide)⟩

end Dovato
